import Mathlib

/-!
Verification of the adaptive extraction and pagination-traversal engine of
the LyftrAi universal scraper (`backend/scraper.py`, `backend/parser_utils.py`,
`backend/models.py`).

The Python source is shallowly embedded:
* HTML documents are modelled as a tree type `HNode`; the selectolax parser's
  selector queries, text extraction and subtree removal are modelled as pure
  tree functions.  `remove_noise`, which in the source round-trips through
  serialized HTML (`HTMLParser` / `.html`), is modelled as the corresponding
  tree-to-tree transformation.
* Python's `urllib.parse.urljoin` is reimplemented following the CPython
  algorithm (scheme splitting, netloc handling, dot-segment resolution);
  the legacy `params` component (`;`-suffixes) is folded into the path.
* The effectful scraper (`httpx` fetch, Playwright rendering) is embedded as
  a deterministic function of an explicit environment that fixes the outcome
  of every external operation (fetch result, rendered page content, locator
  state, exceptions).  Python exceptions are modelled with `Except`; the
  `try`/`except` blocks of the source become explicit matches.
* `pydantic` models become structures; `datetime` timestamps become opaque
  naturals supplied by the environment.  The `HttpUrl` validation of
  `Meta.canonical` is modelled in `get_meta`, where the source constructs
  the `Meta` object: an invalid canonical URL raises `ValidationError`.
-/

namespace Lyftr

/-! ## Python string primitives -/

/-- Python `c.isspace()` for the characters occurring here (models `\s` and
`str.split()` / `str.strip()` whitespace). -/
def pySpace (c : Char) : Bool := c.isWhitespace

/-- Python `s.strip()`. -/
def pyStrip (s : String) : String :=
  ⟨((s.data.dropWhile pySpace).reverse.dropWhile pySpace).reverse⟩

/-- Word accumulator for `pyWords`. -/
def wordsGo (cur : List Char) : List Char → List (List Char)
  | [] => if cur.isEmpty then [] else [cur.reverse]
  | c :: cs =>
    if pySpace c then
      (if cur.isEmpty then [] else [cur.reverse]) ++ wordsGo [] cs
    else wordsGo (c :: cur) cs

/-- Python `s.split()` (split on whitespace runs, dropping empty parts). -/
def pyWords (s : String) : List String :=
  (wordsGo [] s.data).map (fun l => (⟨l⟩ : String))

/-- Python `re.sub(r'\s+', ' ', s).strip()`: collapse whitespace runs to a
single space and trim. -/
def collapseWs (s : String) : String :=
  String.intercalate " " (pyWords s)

/-- Does `needle` occur as a contiguous substring of `hay` (Python `in`)? -/
def substrL : (needle hay : List Char) → Bool
  | [], _ => true
  | _ :: _, [] => false
  | n, c :: cs => startsWithL (c :: cs) n || substrL n cs
where
  /-- Does the first list start with the second (Python `startswith`)? -/
  startsWithL : List Char → List Char → Bool
    | _, [] => true
    | [], _ :: _ => false
    | a :: as, b :: bs => a = b && startsWithL as bs

/-- Python `needle in hay` on strings. -/
def substrS (needle hay : String) : Bool := substrL needle.data hay.data

/-- Python `str.lower()` (ASCII suffices for the patterns in the source). -/
def pyLower (s : String) : String := ⟨s.data.map Char.toLower⟩

/-- `re.search(pat, s, re.I)` where `pat` is an alternation of literal
words, as in the source's `hero|banner`, `grid|list|cards|faqs`, `faq`. -/
def reSearchI (pats : List String) (s : String) : Bool :=
  pats.any (fun p => substrS p (pyLower s))

/-- Python `str.capitalize()`: first character upper-cased, rest lower-cased. -/
def pyCapitalize (s : String) : String :=
  match s.data with
  | [] => ""
  | c :: cs => ⟨c.toUpper :: cs.map Char.toLower⟩

/-! ## `urllib.parse` model

Follows the CPython implementation of `urlsplit` / `urlunsplit` / `urljoin`
(without the legacy `params` component). -/

/-- Characters allowed in a URL scheme (`urllib.parse.scheme_chars`). -/
def schemeChar (c : Char) : Bool :=
  c.isAlpha || c.isDigit || c = '+' || c = '-' || c = '.'

/-- Split a leading `scheme:` off a URL, as `urlsplit` does: the part before
the first `:` must be non-empty and consist of scheme characters. Returns
the (not yet lower-cased) scheme and the rest. -/
def splitSchemeGo (acc : List Char) : List Char → Option (List Char × List Char)
  | [] => none
  | c :: rest =>
    if c = ':' then
      match acc with
      | [] => none
      | _ :: _ => some (acc.reverse, rest)
    else if schemeChar c then splitSchemeGo (c :: acc) rest
    else none

/-- Scheme splitter entry point. -/
def splitScheme (l : List Char) : Option (List Char × List Char) :=
  splitSchemeGo [] l

/-- Split a list at the first occurrence of `c`: returns the part before and,
if `c` occurs, the part after. -/
def splitFirst (c : Char) : List Char → List Char × Option (List Char)
  | [] => ([], none)
  | x :: xs =>
    if x = c then ([], some xs)
    else
      let (pre, post) := splitFirst c xs
      (x :: pre, post)

/-- Take the netloc: characters up to the first `/`, `?` or `#`
(`urllib.parse._splitnetloc`). Returns netloc and rest. -/
def takeNetloc : List Char → List Char × List Char
  | [] => ([], [])
  | x :: xs =>
    if x = '/' || x = '?' || x = '#' then ([], x :: xs)
    else
      let (n, r) := takeNetloc xs
      (x :: n, r)

/-- The five components of `urllib.parse.urlsplit`. -/
structure UrlParts where
  scheme : String
  netloc : String
  path : String
  query : String
  fragment : String
deriving Repr, DecidableEq

/-- `urllib.parse.urlsplit` (components: scheme, netloc, path, query,
fragment; the scheme is lower-cased). -/
def urlsplit (url : String) : UrlParts :=
  let l := url.data
  let (scheme, rest) :=
    match splitScheme l with
    | some (s, r) => (s.map Char.toLower, r)
    | none => ([], l)
  let (netloc, rest) :=
    match rest with
    | '/' :: '/' :: r => takeNetloc r
    | _ => ([], rest)
  let (rest, fragment) := splitFirst '#' rest
  let (path, query) := splitFirst '?' rest
  { scheme := ⟨scheme⟩, netloc := ⟨netloc⟩, path := ⟨path⟩,
    query := ⟨query.getD []⟩, fragment := ⟨fragment.getD []⟩ }

/-- `urllib.parse.urlunsplit`. -/
def urlunsplit (p : UrlParts) : String :=
  let url := p.path
  let url :=
    if p.netloc ≠ "" || (url ≠ "" && url.data.take 2 = ['/', '/']) then
      let url := if url ≠ "" && url.data.head? ≠ some '/' then "/" ++ url else url
      "//" ++ p.netloc ++ url
    else url
  let url := if p.scheme ≠ "" then p.scheme ++ ":" ++ url else url
  let url := if p.query ≠ "" then url ++ "?" ++ p.query else url
  if p.fragment ≠ "" then url ++ "#" ++ p.fragment else url

/-- `urllib.parse.uses_relative`. -/
def usesRelative : List String :=
  ["", "ftp", "http", "gopher", "nntp", "imap", "wais", "file", "https",
   "shttp", "mms", "prospero", "rtsp", "rtspu", "sftp", "svn", "svn+ssh",
   "ws", "wss"]

/-- `urllib.parse.uses_netloc`. -/
def usesNetloc : List String :=
  ["", "ftp", "http", "gopher", "nntp", "telnet", "imap", "wais", "file",
   "mms", "https", "shttp", "snews", "prospero", "rtsp", "rtspu", "rsync",
   "svn", "svn+ssh", "sftp", "nfs", "git", "git+ssh", "ws", "wss",
   "itms-services"]

/-- One step of CPython `urljoin`'s dot-segment resolution: `..` pops,
`.` is dropped, anything else is pushed. -/
def resolveSegs (segs : List String) : List String :=
  segs.foldl
    (fun acc seg =>
      if seg = ".." then acc.dropLast
      else if seg = "." then acc
      else acc ++ [seg])
    []

/-- Python `s.split('/')` on a path string. -/
def splitSlash (s : String) : List String :=
  (s.data.splitOn '/').map (fun l => (⟨l⟩ : String))

/-- `urllib.parse.urljoin` (CPython algorithm, `params` folded into the
path). -/
def urljoin (base url : String) : String :=
  if base = "" then url
  else if url = "" then base
  else
    let b := urlsplit base
    let u := urlsplit url
    -- urlparse(url, scheme=bscheme): the base scheme is the default
    let scheme := if u.scheme = "" then b.scheme else u.scheme
    if scheme ≠ b.scheme ∨ scheme ∉ usesRelative then url
    else
      let netloc :=
        if scheme ∈ usesNetloc then (if u.netloc ≠ "" then u.netloc else b.netloc)
        else u.netloc
      if scheme ∈ usesNetloc ∧ u.netloc ≠ "" then
        urlunsplit { scheme, netloc := u.netloc, path := u.path,
                     query := u.query, fragment := u.fragment }
      else if u.path = "" then
        urlunsplit { scheme, netloc, path := b.path,
                     query := if u.query = "" then b.query else u.query,
                     fragment := u.fragment }
      else
        let baseParts :=
          let bp := splitSlash b.path
          if bp.getLast? ≠ some "" then bp.dropLast else bp
        let segments :=
          if u.path.data.head? = some '/' then splitSlash u.path
          else
            -- segments[1:-1] = filter(None, segments[1:-1])
            let segs := baseParts ++ splitSlash u.path
            match segs with
            | [] => []
            | s₀ :: rest =>
              s₀ :: (rest.dropLast.filter (· ≠ "")) ++ rest.getLast?.toList
        let resolved := resolveSegs segments
        let resolved :=
          if segments.getLast? = some "." || segments.getLast? = some ".." then
            resolved ++ [""]
          else resolved
        let path := String.intercalate "/" resolved
        let path := if path = "" then "/" else path
        urlunsplit { scheme, netloc, path, query := u.query, fragment := u.fragment }

/-- A URL is absolute when it carries a scheme. -/
def isAbsoluteUrl (s : String) : Bool :=
  (splitScheme s.data).isSome

end Lyftr

namespace Lyftr

/-! ## HTML document model (selectolax adapter)

A parsed document is a tree of element and text nodes.  `tree.root` is the
root element node.  The parse/serialize round-trip performed by
`remove_noise` in the source is the identity on this model. -/

inductive HNode where
  | text (s : String)
  | elem (tag : String) (attrs : List (String × String)) (children : List HNode)
deriving Repr

/-- The tag name of a node (text nodes have none). -/
def HNode.tagName : HNode → String
  | .text _ => ""
  | .elem t _ _ => t

/-- `node.attributes.get(name)` (first binding wins, as in a parsed tree). -/
def attrGet (n : HNode) (name : String) : Option String :=
  match n with
  | .text _ => none
  | .elem _ attrs _ => attrs.lookup name

/-- `node.attributes.get(name, dflt)`. -/
def attrGetD (n : HNode) (name dflt : String) : String :=
  (attrGet n name).getD dflt

mutual
/-- The text-node contents of a subtree, in document order. -/
def textChunks : HNode → List String
  | .text s => [s]
  | .elem _ _ cs => textChunksList cs
/-- `textChunks` over a forest. -/
def textChunksList : List HNode → List String
  | [] => []
  | c :: cs => textChunks c ++ textChunksList cs
end

/-- selectolax `node.text(deep=True, separator=sep, strip=strip)`: the text
chunks of the subtree, each stripped (and empty chunks dropped) when
`strip`, joined by `sep`. -/
def nodeText (n : HNode) (sep : String) (strip : Bool) : String :=
  let cs := textChunks n
  let cs := if strip then (cs.map pyStrip).filter (· ≠ "") else cs
  String.intercalate sep cs

mutual
/-- All element nodes of a subtree (the node itself included), in document
(preorder) order — the search space of a selectolax `css` query. -/
def descendants : HNode → List HNode
  | .text _ => []
  | .elem t a cs => .elem t a cs :: descendantsList cs
/-- `descendants` over a forest. -/
def descendantsList : List HNode → List HNode
  | [] => []
  | c :: cs => descendants c ++ descendantsList cs
end

/-- Serialize an attribute list. -/
def serializeAttrs : List (String × String) → String
  | [] => ""
  | (k, v) :: rest => " " ++ k ++ "=\"" ++ v ++ "\"" ++ serializeAttrs rest

mutual
/-- `node.html`: serialized markup of the subtree. -/
def serialize : HNode → String
  | .text s => s
  | .elem t a cs =>
    "<" ++ t ++ serializeAttrs a ++ ">" ++ serializeList cs ++ "</" ++ t ++ ">"
/-- `serialize` over a forest. -/
def serializeList : List HNode → String
  | [] => ""
  | c :: cs => serialize c ++ serializeList cs
end

mutual
/-- Remove every subtree whose root matches `m` (selectolax `node.remove()`
applied to all matches of a selector). -/
def removeMatching (m : HNode → Bool) : HNode → HNode
  | .text s => .text s
  | .elem t a cs => .elem t a (removeMatchingList m cs)
/-- `removeMatching` over a forest. -/
def removeMatchingList (m : HNode → Bool) : List HNode → List HNode
  | [] => []
  | c :: cs =>
    (if m c then [] else [removeMatching m c]) ++ removeMatchingList m cs
end

/-- The whitespace-separated words of a node's `class` attribute. -/
def classWords (n : HNode) : List String := pyWords (attrGetD n "class" "")

/-- Interpretation of the CSS selector strings the source queries with
(tag selectors, attribute presence/equality/substring, class selectors,
comma unions). -/
def selMatch : String → HNode → Bool
  | "main" => fun n => n.tagName = "main"
  | "section" => fun n => n.tagName = "section"
  | "nav" => fun n => n.tagName = "nav"
  | "header" => fun n => n.tagName = "header"
  | "footer" => fun n => n.tagName = "footer"
  | "body" => fun n => n.tagName = "body"
  | "div" => fun n => n.tagName = "div"
  | "title" => fun n => n.tagName = "title"
  | "li" => fun n => n.tagName = "li"
  | "table" => fun n => n.tagName = "table"
  | "ul, ol" => fun n => n.tagName = "ul" || n.tagName = "ol"
  | "h1, h2, h3, h4, h5, h6" => fun n =>
      n.tagName = "h1" || n.tagName = "h2" || n.tagName = "h3" ||
      n.tagName = "h4" || n.tagName = "h5" || n.tagName = "h6"
  | "a[href]" => fun n => n.tagName = "a" && (attrGet n "href").isSome
  | "img[src]" => fun n => n.tagName = "img" && (attrGet n "src").isSome
  | "link[rel='canonical']" => fun n =>
      n.tagName = "link" && attrGet n "rel" = some "canonical"
  | "meta[property='og:title']" => fun n =>
      n.tagName = "meta" && attrGet n "property" = some "og:title"
  | "meta[name='description']" => fun n =>
      n.tagName = "meta" && attrGet n "name" = some "description"
  | "[class*=\"cookie\"]" => fun n =>
      match attrGet n "class" with
      | some v => substrS "cookie" v
      | none => false
  | "[id*=\"modal\"]" => fun n =>
      match attrGet n "id" with
      | some v => substrS "modal" v
      | none => false
  | "[id*=\"popup\"]" => fun n =>
      match attrGet n "id" with
      | some v => substrS "popup" v
      | none => false
  | "[aria-modal=\"true\"]" => fun n => attrGet n "aria-modal" = some "true"
  | "[role=\"dialog\"]" => fun n => attrGet n "role" = some "dialog"
  | ".newsletter-signup" => fun n => "newsletter-signup" ∈ classWords n
  | ".ad-banner" => fun n => "ad-banner" ∈ classWords n
  | _ => fun _ => false

/-- `node.css(selector)`: matching elements of the subtree in document
order. -/
def css (n : HNode) (sel : String) : List HNode :=
  (descendants n).filter (selMatch sel)

/-- `tree.css_first(selector)`. -/
def cssFirst (n : HNode) (sel : String) : Option HNode :=
  (css n sel).head?

/-- The element children of a node. -/
def childElems (n : HNode) : List HNode :=
  match n with
  | .elem _ _ cs => cs.filter (fun c => match c with | .elem .. => true | _ => false)
  | .text _ => []

/-- `tree.css('body > div')`: the direct `div` children of each `body`
element (child combinator, handled structurally). -/
def bodyDivs (tree : HNode) : List HNode :=
  (css tree "body").foldr
    (fun b acc => (childElems b).filter (selMatch "div") ++ acc) []

/-! ## `backend/models.py` -/

/-- `models.Link`. -/
structure Link where
  text : String := ""
  href : String := ""
deriving Repr, DecidableEq

/-- `models.Image`. -/
structure Image where
  src : String := ""
  alt : String := ""
deriving Repr, DecidableEq

/-- `models.Content`. -/
structure Content where
  headings : List String := []
  text : String := ""
  links : List Link := []
  images : List Image := []
  lists : List (List String) := []
  tables : List String := []
deriving Repr, DecidableEq

/-- `models.Section`. -/
structure Section where
  id : String
  type : String
  label : String
  sourceUrl : String
  content : Content
  rawHtml : String
  truncated : Bool
deriving Repr, DecidableEq

/-- `models.Meta` (`canonical` holds the already-validated URL as a
string; the pydantic `HttpUrl` validation performed at construction is
modelled in `get_meta`, the one site that builds a `Meta` from parsed
data — all other `Meta(...)` constructions in the source pass
`canonical=None`). -/
structure Meta where
  title : String := ""
  description : Option String := none
  language : String := ""
  canonical : Option String := none
  strategy : String := "static"
deriving Repr, DecidableEq

/-- `models.Error`. -/
structure Error where
  message : String
  phase : String
deriving Repr, DecidableEq

/-- `models.Interactions`. -/
structure Interactions where
  clicks : List String := []
  scrolls : Nat := 0
  pages : List String := []
deriving Repr, DecidableEq

/-- `models.ScrapeResult` (the timestamp is an opaque natural supplied by
the environment). -/
structure ScrapeResult where
  url : String
  scrapedAt : Nat
  meta : Meta
  sections : List Section
  interactions : Interactions
  errors : List Error := []
deriving Repr, DecidableEq

end Lyftr

namespace Lyftr

/-! ## `backend/parser_utils.py` -/

/-- A Python exception: `httpx.HTTPStatusError`, or any other `Exception`
identified by its type name and message (`pydantic.ValidationError`,
transport errors, …). -/
inductive PyExn where
  | httpStatus (code : Nat) (reason : String)
  | other (name msg : String)
deriving Repr, DecidableEq

/-- Modelled from pydantic's `HttpUrl` (`models.py` line 41): an absolute
URL with scheme `http` or `https` and a non-empty host. -/
def isHttpUrl (s : String) : Bool :=
  ((urlsplit s).scheme = "http" || (urlsplit s).scheme = "https") &&
    (urlsplit s).netloc ≠ ""

/-- `parser_utils.get_meta`.  Constructing `models.Meta` validates
`canonical` against pydantic's `HttpUrl`: a canonical link that resolves to
a non-http(s) URL makes the `Meta(...)` call raise `ValidationError`
(the message text here is representative; the exception's type name and
the control flow are the faithful part). -/
def get_meta (tree : HNode) (url : String) : Except PyExn Meta :=
  let canonical_node := cssFirst tree "link[rel='canonical']"
  let canonical_href := canonical_node.bind (fun n => attrGet n "href")
  let title := cssFirst tree "title"
  let og_title := cssFirst tree "meta[property='og:title']"
  let description_node := cssFirst tree "meta[name='description']"
  let description := description_node.map (fun n => attrGetD n "content" "")
  let canonical : Option String :=
    match canonical_href with
    | some h => if h ≠ "" then some (urljoin url h) else none
    | none => none
  match canonical with
  | some c =>
    if isHttpUrl c then
      Except.ok
        { title :=
            match title with
            | some t => nodeText t "" false
            | none =>
              match og_title with
              | some m => attrGetD m "content" ""
              | none => ""
          description := description
          -- tree.root.attributes.get('lang', 'en'): the tree is its root element
          language := attrGetD tree "lang" "en"
          canonical := some c
          strategy := "static" }
    else
      Except.error (.other "ValidationError"
        "1 validation error for Meta (canonical: URL scheme should be http or https)")
  | none =>
    Except.ok
      { title :=
          match title with
          | some t => nodeText t "" false
          | none =>
            match og_title with
            | some m => attrGetD m "content" ""
            | none => ""
        description := description
        language := attrGetD tree "lang" "en"
        canonical := none
        strategy := "static" }

/-- `parser_utils.TRUNCATION_LIMIT`. -/
def TRUNCATION_LIMIT : Nat := 500

/-- The link-building loop of `extract_section_content` (`for a in
node.css('a[href]')`). -/
def buildLinks (base_url : String) : List HNode → List Link
  | [] => []
  | a :: rest =>
    match attrGet a "href" with
    | some href =>
      if href ≠ "" then
        let absolute_href := urljoin base_url href
        { text := if nodeText a "" true ≠ "" then nodeText a "" true else absolute_href,
          href := absolute_href } :: buildLinks base_url rest
      else buildLinks base_url rest
    | none => buildLinks base_url rest

/-- The image-building loop of `extract_section_content` (`for img in
node.css('img[src]')`). -/
def buildImages (base_url : String) : List HNode → List Image
  | [] => []
  | img :: rest =>
    match attrGet img "src" with
    | some src =>
      if src ≠ "" then
        { src := urljoin base_url src, alt := attrGetD img "alt" "" }
          :: buildImages base_url rest
      else buildImages base_url rest
    | none => buildImages base_url rest

/-- The list-building loop of `extract_section_content` (`for ul_ol in
node.css('ul, ol')`). -/
def buildLists : List HNode → List (List String)
  | [] => []
  | ul_ol :: rest =>
    let list_items :=
      ((css ul_ol "li").map (fun li => nodeText li "" true)).filter (· ≠ "")
    (if list_items ≠ [] then [list_items] else []) ++ buildLists rest

/-- `parser_utils.extract_section_content`. -/
def extract_section_content (node : HNode) (base_url : String) : Content :=
  { headings :=
      ((css node "h1, h2, h3, h4, h5, h6").map (fun h => nodeText h "" true)).filter
        (· ≠ "")
    text := collapseWs (nodeText node " " true)
    links := buildLinks base_url (css node "a[href]")
    images := buildImages base_url (css node "img[src]")
    lists := buildLists (css node "ul, ol")
    tables := (css node "table").map serialize }

/-- `parser_utils.determine_section_type`. -/
def determine_section_type (node : HNode) : String :=
  let tag := node.tagName
  let role := pyLower (attrGetD node "role" "")
  if tag = "header" then "nav"
  else if tag = "nav" || role = "navigation" then "nav"
  else if tag = "footer" then "footer"
  else if tag = "section" then
    if reSearchI ["hero", "banner"] (attrGetD node "id" "" ++ attrGetD node "class" "") then
      "hero"
    else "section"
  else if tag = "ul" || tag = "ol" then "list"
  else if tag = "main" then "section"
  else if tag = "div" then
    if reSearchI ["grid", "list", "cards", "faqs"] (attrGetD node "class" "") then
      -- 'grid' if 'grid' in node.attributes.get('class', '') else 'list'
      if substrS "grid" (attrGetD node "class" "") then "grid" else "list"
    else if reSearchI ["faq"] (attrGetD node "id" "" ++ attrGetD node "class" "") then
      "faq"
    else "unknown"
  else "unknown"

/-- `parser_utils.create_section`. -/
def create_section (node : HNode) (base_url : String) (section_index : Nat) : Section :=
  let raw_html := serialize node
  let truncated := raw_html.length > TRUNCATION_LIMIT
  let content := extract_section_content node base_url
  let section_type := determine_section_type node
  let label :=
    match content.headings with
    | h :: _ => h
    | [] =>
      if content.text ≠ "" then
        String.intercalate " " ((pyWords content.text).take 7) ++
          (if (pyWords content.text).length > 7 then "..." else "")
      else pyCapitalize section_type ++ " Section"
  { id := section_type ++ "-" ++ toString section_index
    type := section_type
    label := label
    sourceUrl := base_url
    content := content
    rawHtml := raw_html.take TRUNCATION_LIMIT
    truncated := truncated }

/-- `parser_utils.get_sections`'s semantic selector list. -/
def semantic_selectors : List String := ["main", "section", "nav", "header", "footer"]

/-- `parser_utils.get_sections`. -/
def get_sections (tree : HNode) (base_url : String) : List Section :=
  -- Priority 1: semantic HTML, one css query per selector, appending with
  -- index len(sections)
  let sections :=
    semantic_selectors.foldl
      (fun acc sel =>
        (css tree sel).foldl
          (fun acc node => acc ++ [create_section node base_url acc.length]) acc)
      []
  -- Priority 2: high-level divs if no semantic sections were found
  let sections :=
    if sections.isEmpty then
      (bodyDivs tree).foldl
        (fun acc node => acc ++ [create_section node base_url acc.length]) []
    else sections
  -- Basic filtering of empty sections
  sections.filter (fun s => s.content.text ≠ "" || s.content.images ≠ [] || s.content.links ≠ [])

/-- `parser_utils.NOISE_SELECTORS`. -/
def NOISE_SELECTORS : List String :=
  ["[class*=\"cookie\"]", "[id*=\"modal\"]", "[id*=\"popup\"]",
   "[aria-modal=\"true\"]", "[role=\"dialog\"]", ".newsletter-signup", ".ad-banner"]

/-- `parser_utils.remove_noise`: removes every subtree matching a noise
selector, one selector at a time (the source's string→tree→string
round-trip is the identity on the tree model). -/
def remove_noise (tree : HNode) : HNode :=
  NOISE_SELECTORS.foldl (fun t sel => removeMatching (selMatch sel) t) tree

end Lyftr

namespace Lyftr

/-! ## `backend/scraper.py` -/

/-- `scraper.JS_FALLBACK_HEURISTIC_TEXT_MIN_LENGTH`. -/
def JS_FALLBACK_HEURISTIC_TEXT_MIN_LENGTH : Nat := 100

/-- `scraper.MAX_SCROLL_DEPTH`. -/
def MAX_SCROLL_DEPTH : Nat := 3

/-- Append an `Error` to a result (`result.errors.append(...)`). -/
def addError (r : ScrapeResult) (message phase : String) : ScrapeResult :=
  { r with errors := r.errors ++ [{ message, phase }] }

/-- Append a click description (`result.interactions.clicks.append(...)`). -/
def addClick (r : ScrapeResult) (c : String) : ScrapeResult :=
  { r with interactions := { r.interactions with clicks := r.interactions.clicks ++ [c] } }

/-- Append a visited page (`result.interactions.pages.append(...)`). -/
def addPage (r : ScrapeResult) (p : String) : ScrapeResult :=
  { r with interactions := { r.interactions with pages := r.interactions.pages ++ [p] } }

/-- What the rendering surface exposes on one page of the pagination loop:
the live DOM, the outcome of the `.pagination` wait, the pagination
control's visibility/enabled state, its `href`, text content, `aria-label`,
and the URL the browser reports after clicking it. -/
structure PageView where
  doc : HNode
  paginationFound : Bool
  visibleEnabled : Bool
  href : Option String
  textContent : Option String
  ariaLabel : Option String
  clickUrl : String

/-- Whether and where a Playwright call raises during the click-and-advance
part of an iteration: at `click()` (nothing recorded yet) or at
`wait_for_load_state` (the click description is already recorded). -/
inductive ClickFate where
  | ok
  | raiseAtClick (msg : String)
  | raiseAfterClick (msg : String)

/-- Behaviour of one loop iteration: either `page.content()` raises, or the
page renders as `v` and any raise happens at the click per `fate`. -/
inductive IterBehavior where
  | raiseAtContent (msg : String)
  | page (v : PageView) (fate : ClickFate)

/-- Environment of `_js_render_and_interact`: outcome of browser
launch/navigation, which noise-dismissal clicks succeed, the behaviour of
each loop iteration, the outcome of `browser.close()`, and the completion
timestamp. -/
structure RenderEnv where
  launchError : Option String
  dismiss : String → Bool
  iters : Nat → IterBehavior
  closeError : Option String
  now : Nat

/-- Loop-local state: the result object (mutated in place in the source)
plus the local variables `all_sections` and `current_url`. -/
structure RState where
  result : ScrapeResult
  all_sections : List Section
  current_url : String

/-- Outcome of one iteration of the pagination loop: continue, `break`, or
an exception escaping to the loop's outer boundary. -/
inductive IterOut where
  | cont (st : RState)
  | brk (st : RState)
  | exn (st : RState) (msg : String)

/-- `interaction_text`: the control's text content, falling back to its
`aria-label`, falling back to `'Unknown Link/Button'` (Python truthiness:
`None` and `""` both fall through). -/
def interactionText (v : PageView) : String :=
  let aria :=
    match v.ariaLabel with
    | some a => if a = "" then "Unknown Link/Button" else a
    | none => "Unknown Link/Button"
  match v.textContent with
  | some t => if t = "" then aria else t
  | none => aria

/-- The four noise-dismissal selectors clicked before the pagination loop. -/
def noise_dismiss_selectors : List String :=
  ["#cookie-banner button", ".cc-revoke", "button:has-text(\"Accept\")",
   "[aria-label*=\"cookie\"] button"]

/-- One iteration of the pagination-only flow of
`UniversalScraper._js_render_and_interact` (`for i in
range(MAX_SCROLL_DEPTH + 1)`), scraper.py lines 129-199. `seed` is the
`url` argument of the method. -/
def renderIter (seed : String) (env : RenderEnv) (i : Nat) (st : RState) : IterOut :=
  match env.iters i with
  | .raiseAtContent m => .exn st m
  | .page v fate =>
    -- A. extract from the current page state: content → remove_noise →
    -- parse → get_sections, appended to all_sections
    let page_sections := get_sections (remove_noise v.doc) st.current_url
    let st := { st with all_sections := st.all_sections ++ page_sections }
    if i ≥ MAX_SCROLL_DEPTH then .brk st
    else if ¬ v.paginationFound then
      let r' := addError st.result
        ("No main pagination block found on page " ++ toString (i + 1) ++
          ". Ending interaction.") "heuristic"
      .brk { st with result := r' }
    else if ¬ v.visibleEnabled then
      let r' := addError st.result
        ("Pagination link not visible/enabled on page " ++ toString (i + 1) ++
          ". Ending interaction.") "heuristic"
      .brk { st with result := r' }
    else
      -- Python truthiness of `href`: None and "" are both falsy
      let hrefT : Option String :=
        match v.href with
        | some h => if h = "" then none else some h
        | none => none
      -- 1. next URL for the safety check: resolved against the seed `url`
      let next_url_absolute :=
        match hrefT with
        | some h => urljoin seed h
        | none => st.current_url
      -- 2. is_new_page_needed
      let is_new_page_needed : Bool :=
        match hrefT with
        | some _ => decide (next_url_absolute ∉ st.result.interactions.pages)
        | none => true
      if is_new_page_needed then
        let clickMsg :=
          "Followed '" ++ pyStrip (interactionText v) ++ "' (" ++
            toString (i + 1) ++ ")"
        match fate with
        | .raiseAtClick m => .exn st m
        | .raiseAfterClick m =>
          .exn { st with result := addClick st.result clickMsg } m
        | .ok =>
          let st := { st with result := addClick st.result clickMsg }
          let st := { st with current_url := v.clickUrl }
          let st :=
            if v.clickUrl ∈ st.result.interactions.pages then st
            else { st with result := addPage st.result v.clickUrl }
          .cont st
      else
        let r' := addError st.result
          "Pagination click leads to an already visited URL or is not new. Ending interaction."
          "heuristic"
        .brk { st with result := r' }

/-- The pagination loop over the iteration indices. -/
def renderLoop (seed : String) (env : RenderEnv) :
    List Nat → RState → RState × Option String
  | [], st => (st, none)
  | i :: rest, st =>
    match renderIter seed env i st with
    | .cont st' => renderLoop seed env rest st'
    | .brk st' => (st', none)
    | .exn st' m => (st', some m)

/-- `UniversalScraper._js_render_and_interact`. -/
def _js_render_and_interact (env : RenderEnv) (url : String)
    (result : ScrapeResult) : ScrapeResult :=
  -- result.meta.strategy = "js" (before the try block)
  let result := { result with meta := { result.meta with strategy := "js" } }
  match env.launchError with
  | some m =>
    addError result ("Critical error during JS rendering/interaction: " ++ m) "render"
  | none =>
    -- 2. noise filtering: best-effort dismissal clicks, failures ignored
    let result :=
      noise_dismiss_selectors.foldl
        (fun r sel =>
          if env.dismiss sel then addClick r ("Dismissed noise: " ++ sel) else r)
        result
    let st0 : RState := { result := result, all_sections := [], current_url := url }
    match renderLoop url env (List.range (MAX_SCROLL_DEPTH + 1)) st0 with
    | (st, some m) =>
      addError st.result ("Critical error during JS rendering/interaction: " ++ m) "render"
    | (st, none) =>
      match env.closeError with
      | some m =>
        -- browser.close() raised before `result.sections = all_sections`
        addError st.result ("Critical error during JS rendering/interaction: " ++ m) "render"
      | none =>
        { st.result with
          sections := st.all_sections,
          meta := { st.result.meta with strategy := "js" },
          scrapedAt := env.now }

/-- Outcome of the static fetch (`httpx` GET + `raise_for_status`). -/
inductive FetchOutcome where
  | success (doc : HNode)
  | statusError (code : Nat) (reason : String)
  | exn (name msg : String)

/-- Environment of one `scrape` call. -/
structure ScrapeEnv where
  fetch : FetchOutcome
  render : RenderEnv
  now : Nat

/-- The `main_content_text` accumulation of `scrape` (lines 52-55). -/
def main_content_text (sections : List Section) : String :=
  sections.foldl
    (fun acc s =>
      if s.type ∈ ["hero", "section", "list", "grid"] then acc ++ s.content.text
      else acc)
    ""

/-- The `has_next_page_link` test of `scrape` (lines 59-64). -/
def has_next_page_link (sections : List Section) : Bool :=
  sections.any (fun s =>
    s.content.links.any (fun link =>
      pyLower link.text = "next" ||
        (substrS "page-" link.href && pyLower link.text = "next")))

/-- The sparse-content heuristic message (line 72). -/
def sparseMessage (n : Nat) : String :=
  "Static content too sparse (" ++ toString n ++ " chars). Falling back to JS rendering."

/-- The pagination-detected heuristic message (line 75). -/
def paginationMessage : String :=
  "Static content found, but detected pagination link ('next'). Initiating JS rendering and interaction flow to capture all pages."

/-- The result object constructed at the top of `scrape`, with the seed URL
already appended to `interactions.pages` (lines 26-35). -/
def initResult (env : ScrapeEnv) (url : String) : ScrapeResult :=
  { url := url, scrapedAt := env.now, meta := { strategy := "static" },
    sections := [], interactions := { pages := [url] }, errors := [] }

/-- The `try` block of `UniversalScraper.scrape` (lines 37-82): any raise is
returned as `.error` for the handlers. -/
def scrapeTryBody (env : ScrapeEnv) (url : String) (result : ScrapeResult) :
    Except PyExn ScrapeResult :=
  match env.fetch with
  | .statusError c reason => .error (.httpStatus c reason)
  | .exn n m => .error (.other n m)
  | .success doc =>
    let tree := doc
    -- line 45: html_text = remove_noise(html_text) — the cleaned document
    -- is *not* the tree extraction reads from; it is only passed on as the
    -- unused `initial_html` argument
    let _html_text := remove_noise doc
    -- line 48: result.meta = get_meta(tree, url); a ValidationError raised
    -- by the Meta construction propagates to the generic except handler
    match get_meta tree url with
    | .error e => .error e
    | .ok meta =>
    let result :=
      { result with meta := meta, sections := get_sections tree url }
    let mtext := main_content_text result.sections
    let needs_js_render :=
      mtext.length < JS_FALLBACK_HEURISTIC_TEXT_MIN_LENGTH ||
        has_next_page_link result.sections
    if needs_js_render then
      let message :=
        if mtext.length < JS_FALLBACK_HEURISTIC_TEXT_MIN_LENGTH then
          sparseMessage mtext.length
        else paginationMessage
      let result := addError result message "heuristic"
      .ok (_js_render_and_interact env.render url result)
    else .ok result

/-- `UniversalScraper.scrape` with its two `except` handlers made explicit;
a `.error` value would be an exception escaping to the caller. -/
def scrapeExc (env : ScrapeEnv) (url : String) : Except PyExn ScrapeResult :=
  let result := initResult env url
  match scrapeTryBody env url result with
  | .ok r => .ok r
  | .error (.httpStatus code reason) =>
    -- except httpx.HTTPStatusError
    let result := addError result ("HTTP Error " ++ toString code ++ ": " ++ reason) "fetch"
    if 400 ≤ code ∧ code < 500 then .ok (_js_render_and_interact env.render url result)
    else .ok result
  | .error (.other name msg) =>
    -- except Exception
    let result :=
      addError result ("Critical error during static scrape: " ++ name ++ ": " ++ msg) "fetch"
    .ok (_js_render_and_interact env.render url result)

/-- `UniversalScraper.scrape` as the total function it is (every exception
path is handled; `scrapeExc` never returns `.error`, proved below). -/
def scrape (env : ScrapeEnv) (url : String) : ScrapeResult :=
  match scrapeExc env url with
  | .ok r => r
  | .error _ => initResult env url

end Lyftr

namespace Lyftr

/-! ## Helper lemmas: shape of the render loop's state transitions -/

/-- The state carried by any iteration outcome. -/
def IterOut.state : IterOut → RState
  | .cont st => st
  | .brk st => st
  | .exn st _ => st

/-- One pagination-loop iteration only ever: appends page sections to
`all_sections`, appends errors, appends click descriptions, and appends at
most one URL — fresh, and never on the final depth — to `pages`. All other
result fields are untouched. -/
theorem renderIter_shape (seed : String) (env : RenderEnv) (i : Nat) (st : RState) :
    ∃ (ps : List Section) (errs : List Error) (cls pgs : List String),
      (renderIter seed env i st).state.result.url = st.result.url ∧
      (renderIter seed env i st).state.result.scrapedAt = st.result.scrapedAt ∧
      (renderIter seed env i st).state.result.meta = st.result.meta ∧
      (renderIter seed env i st).state.result.sections = st.result.sections ∧
      (renderIter seed env i st).state.result.interactions.scrolls
        = st.result.interactions.scrolls ∧
      (renderIter seed env i st).state.result.errors = st.result.errors ++ errs ∧
      (renderIter seed env i st).state.result.interactions.clicks
        = st.result.interactions.clicks ++ cls ∧
      (renderIter seed env i st).state.result.interactions.pages
        = st.result.interactions.pages ++ pgs ∧
      (renderIter seed env i st).state.all_sections = st.all_sections ++ ps ∧
      pgs.length ≤ 1 ∧
      (MAX_SCROLL_DEPTH ≤ i → pgs = []) ∧
      (∀ x ∈ pgs, x ∉ st.result.interactions.pages) := by
  cases hb : env.iters i with
  | raiseAtContent m =>
    exact ⟨[], [], [], [], by simp [renderIter, hb, IterOut.state]⟩
  | page v fate =>
    by_cases hd : i ≥ MAX_SCROLL_DEPTH
    · exact ⟨get_sections (remove_noise v.doc) st.current_url, [], [], [],
        by simp [renderIter, hb, hd, IterOut.state]⟩
    · by_cases hp : v.paginationFound
      · by_cases hv : v.visibleEnabled
        · cases hh : v.href with
          | none =>
            cases fate with
            | ok =>
              by_cases hm : v.clickUrl ∈ st.result.interactions.pages
              · exact ⟨get_sections (remove_noise v.doc) st.current_url, [], ["Followed '" ++ pyStrip (interactionText v) ++ "' (" ++ toString (i + 1) ++ ")"], [],
                  by simp [renderIter, hb, hd, hp, hv, hh, hm, IterOut.state, addClick]⟩
              · refine ⟨get_sections (remove_noise v.doc) st.current_url, [], ["Followed '" ++ pyStrip (interactionText v) ++ "' (" ++ toString (i + 1) ++ ")"],
                  [v.clickUrl], ?_⟩
                simp [renderIter, hb, hd, hp, hv, hh, hm, IterOut.state, addClick, addPage]
            | raiseAtClick m =>
              exact ⟨get_sections (remove_noise v.doc) st.current_url, [], [], [],
                by simp [renderIter, hb, hd, hp, hv, hh, IterOut.state]⟩
            | raiseAfterClick m =>
              exact ⟨get_sections (remove_noise v.doc) st.current_url, [], ["Followed '" ++ pyStrip (interactionText v) ++ "' (" ++ toString (i + 1) ++ ")"], [],
                by simp [renderIter, hb, hd, hp, hv, hh, IterOut.state, addClick]⟩
          | some h =>
            by_cases hz : h = ""
            · cases fate with
              | ok =>
                by_cases hm : v.clickUrl ∈ st.result.interactions.pages
                · exact ⟨get_sections (remove_noise v.doc) st.current_url, [], ["Followed '" ++ pyStrip (interactionText v) ++ "' (" ++ toString (i + 1) ++ ")"], [],
                    by simp [renderIter, hb, hd, hp, hv, hh, hz, hm, IterOut.state, addClick]⟩
                · refine ⟨get_sections (remove_noise v.doc) st.current_url, [], ["Followed '" ++ pyStrip (interactionText v) ++ "' (" ++ toString (i + 1) ++ ")"],
                    [v.clickUrl], ?_⟩
                  simp [renderIter, hb, hd, hp, hv, hh, hz, hm, IterOut.state, addClick, addPage]
              | raiseAtClick m =>
                exact ⟨get_sections (remove_noise v.doc) st.current_url, [], [], [],
                  by simp [renderIter, hb, hd, hp, hv, hh, hz, IterOut.state]⟩
              | raiseAfterClick m =>
                exact ⟨get_sections (remove_noise v.doc) st.current_url, [], ["Followed '" ++ pyStrip (interactionText v) ++ "' (" ++ toString (i + 1) ++ ")"], [],
                  by simp [renderIter, hb, hd, hp, hv, hh, hz, IterOut.state, addClick]⟩
            · by_cases hnew : urljoin seed h ∈ st.result.interactions.pages
              · exact ⟨get_sections (remove_noise v.doc) st.current_url, [{ message := "Pagination click leads to an already visited URL or is not new. Ending interaction.", phase := "heuristic" }], [], [],
                  by simp [renderIter, hb, hd, hp, hv, hh, hz, hnew, IterOut.state, addError]⟩
              · cases fate with
                | ok =>
                  by_cases hm : v.clickUrl ∈ st.result.interactions.pages
                  · exact ⟨get_sections (remove_noise v.doc) st.current_url, [], ["Followed '" ++ pyStrip (interactionText v) ++ "' (" ++ toString (i + 1) ++ ")"], [],
                      by simp [renderIter, hb, hd, hp, hv, hh, hz, hnew, hm,
                        IterOut.state, addClick]⟩
                  · refine ⟨get_sections (remove_noise v.doc) st.current_url, [], ["Followed '" ++ pyStrip (interactionText v) ++ "' (" ++ toString (i + 1) ++ ")"],
                      [v.clickUrl], ?_⟩
                    simp [renderIter, hb, hd, hp, hv, hh, hz, hnew, hm,
                      IterOut.state, addClick, addPage]
                | raiseAtClick m =>
                  exact ⟨get_sections (remove_noise v.doc) st.current_url, [], [], [],
                    by simp [renderIter, hb, hd, hp, hv, hh, hz, hnew, IterOut.state]⟩
                | raiseAfterClick m =>
                  exact ⟨get_sections (remove_noise v.doc) st.current_url, [], ["Followed '" ++ pyStrip (interactionText v) ++ "' (" ++ toString (i + 1) ++ ")"], [],
                    by simp [renderIter, hb, hd, hp, hv, hh, hz, hnew, IterOut.state, addClick]⟩
        · exact ⟨get_sections (remove_noise v.doc) st.current_url, [{ message := "Pagination link not visible/enabled on page " ++ toString (i + 1) ++ ". Ending interaction.", phase := "heuristic" }], [], [],
            by simp [renderIter, hb, hd, hp, hv, IterOut.state, addError]⟩
      · exact ⟨get_sections (remove_noise v.doc) st.current_url, [{ message := "No main pagination block found on page " ++ toString (i + 1) ++ ". Ending interaction.", phase := "heuristic" }], [], [],
          by simp [renderIter, hb, hd, hp, IterOut.state, addError]⟩

/-- Across any run of the pagination loop: the result's `url`, `scrapedAt`,
`meta`, `sections` and scroll counter are untouched; errors, clicks and
pages only grow; at most one (always fresh) page URL is appended per
iteration index below `MAX_SCROLL_DEPTH`; and `all_sections` grows by one
block of extracted sections per visited page (at most one block per
iteration). -/
theorem renderLoop_shape (seed : String) (env : RenderEnv) :
    ∀ (L : List Nat) (st : RState),
    ∃ (exs : List (List Section)) (errs : List Error) (cls pgs : List String),
      (renderLoop seed env L st).1.result.url = st.result.url ∧
      (renderLoop seed env L st).1.result.scrapedAt = st.result.scrapedAt ∧
      (renderLoop seed env L st).1.result.meta = st.result.meta ∧
      (renderLoop seed env L st).1.result.sections = st.result.sections ∧
      (renderLoop seed env L st).1.result.interactions.scrolls
        = st.result.interactions.scrolls ∧
      (renderLoop seed env L st).1.result.errors = st.result.errors ++ errs ∧
      (renderLoop seed env L st).1.result.interactions.clicks
        = st.result.interactions.clicks ++ cls ∧
      (renderLoop seed env L st).1.result.interactions.pages
        = st.result.interactions.pages ++ pgs ∧
      (renderLoop seed env L st).1.all_sections = st.all_sections ++ exs.flatten ∧
      exs.length ≤ L.length ∧
      pgs.length ≤ L.countP (fun j => decide (j < MAX_SCROLL_DEPTH)) ∧
      (st.result.interactions.pages.Nodup →
        (st.result.interactions.pages ++ pgs).Nodup) := by
  intro L
  induction L with
  | nil =>
    intro st
    exact ⟨[], [], [], [], by simp [renderLoop]⟩
  | cons i rest ih =>
    intro st
    obtain ⟨ps₁, errs₁, cls₁, pgs₁, h₁⟩ := renderIter_shape seed env i st
    obtain ⟨hu₁, ht₁, hm₁, hs₁, hsc₁, he₁, hc₁, hp₁, ha₁, hlen₁, hdeep₁, hfresh₁⟩ := h₁
    have hnd₁ : st.result.interactions.pages.Nodup →
        (st.result.interactions.pages ++ pgs₁).Nodup := by
      intro hnd
      match pgs₁, hlen₁ with
      | [], _ => simpa using hnd
      | [x], _ =>
        have hx := hfresh₁ x (by simp)
        simp [List.nodup_append, hnd, hx]
    have hcnt₁ : pgs₁.length ≤ (if i < MAX_SCROLL_DEPTH then 1 else 0) := by
      by_cases hi : i < MAX_SCROLL_DEPTH
      · simpa [hi] using hlen₁
      · simp [hi, hdeep₁ (by omega)]
    cases hout : renderIter seed env i st with
    | cont st₁ =>
      obtain ⟨exs₂, errs₂, cls₂, pgs₂, h₂⟩ := ih st₁
      obtain ⟨hu₂, ht₂, hm₂, hs₂, hsc₂, he₂, hc₂, hp₂, ha₂, hlen₂, hcnt₂, hnd₂⟩ := h₂
      have hst₁ : (renderIter seed env i st).state = st₁ := by rw [hout]; rfl
      rw [hst₁] at hu₁ ht₁ hm₁ hs₁ hsc₁ he₁ hc₁ hp₁ ha₁
      refine ⟨ps₁ :: exs₂, errs₁ ++ errs₂, cls₁ ++ cls₂, pgs₁ ++ pgs₂, ?_⟩
      have hloop : renderLoop seed env (i :: rest) st = renderLoop seed env rest st₁ := by
        simp [renderLoop, hout]
      rw [hloop]
      refine ⟨by rw [hu₂, hu₁], by rw [ht₂, ht₁], by rw [hm₂, hm₁], by rw [hs₂, hs₁],
        by rw [hsc₂, hsc₁], by rw [he₂, he₁, List.append_assoc],
        by rw [hc₂, hc₁, List.append_assoc],
        by rw [hp₂, hp₁, List.append_assoc],
        by rw [ha₂, ha₁]; simp [List.append_assoc],
        by simpa using hlen₂, ?_, ?_⟩
      · have : (pgs₁ ++ pgs₂).length = pgs₁.length + pgs₂.length := by simp
        rw [this]
        have hc : (i :: rest).countP (fun j => decide (j < MAX_SCROLL_DEPTH))
            = (if i < MAX_SCROLL_DEPTH then 1 else 0)
              + rest.countP (fun j => decide (j < MAX_SCROLL_DEPTH)) := by
          by_cases hi : i < MAX_SCROLL_DEPTH <;>
            simp [List.countP_cons, hi, Nat.add_comm]
        rw [hc]
        exact Nat.add_le_add hcnt₁ hcnt₂
      · intro hnd
        have h1 := hnd₁ hnd
        rw [hp₁] at hnd₂
        have := hnd₂ h1
        rwa [List.append_assoc] at this
    | brk st₁ =>
      have hst₁ : (renderIter seed env i st).state = st₁ := by rw [hout]; rfl
      rw [hst₁] at hu₁ ht₁ hm₁ hs₁ hsc₁ he₁ hc₁ hp₁ ha₁
      have hloop : renderLoop seed env (i :: rest) st = (st₁, none) := by
        simp [renderLoop, hout]
      refine ⟨[ps₁], errs₁, cls₁, pgs₁, ?_⟩
      rw [hloop]
      refine ⟨hu₁, ht₁, hm₁, hs₁, hsc₁, he₁, hc₁, hp₁, by simpa using ha₁,
        by simp, ?_, hnd₁⟩
      calc pgs₁.length ≤ (if i < MAX_SCROLL_DEPTH then 1 else 0) := hcnt₁
        _ ≤ (i :: rest).countP (fun j => decide (j < MAX_SCROLL_DEPTH)) := by
          by_cases hi : i < MAX_SCROLL_DEPTH <;>
            simp [List.countP_cons, hi]
    | exn st₁ m =>
      have hst₁ : (renderIter seed env i st).state = st₁ := by rw [hout]; rfl
      rw [hst₁] at hu₁ ht₁ hm₁ hs₁ hsc₁ he₁ hc₁ hp₁ ha₁
      have hloop : renderLoop seed env (i :: rest) st = (st₁, some m) := by
        simp [renderLoop, hout]
      refine ⟨[ps₁], errs₁, cls₁, pgs₁, ?_⟩
      rw [hloop]
      refine ⟨hu₁, ht₁, hm₁, hs₁, hsc₁, he₁, hc₁, hp₁, by simpa using ha₁,
        by simp, ?_, hnd₁⟩
      calc pgs₁.length ≤ (if i < MAX_SCROLL_DEPTH then 1 else 0) := hcnt₁
        _ ≤ (i :: rest).countP (fun j => decide (j < MAX_SCROLL_DEPTH)) := by
          by_cases hi : i < MAX_SCROLL_DEPTH <;>
            simp [List.countP_cons, hi]


/-- The `Error` recorded at the render loop's outer exception boundary. -/
def renderError (m : String) : Error :=
  { message := "Critical error during JS rendering/interaction: " ++ m, phase := "render" }

/-- The best-effort noise-dismissal fold only appends click descriptions. -/
theorem dismissFold_shape (env : RenderEnv) :
    ∀ (l : List String) (r : ScrapeResult),
    ∃ cls,
      (l.foldl (fun r sel =>
          if env.dismiss sel then addClick r ("Dismissed noise: " ++ sel) else r) r)
        = { r with interactions :=
              { r.interactions with clicks := r.interactions.clicks ++ cls } } := by
  intro l
  induction l with
  | nil => intro r; exact ⟨[], by simp⟩
  | cons sel rest ih =>
    intro r
    by_cases hds : env.dismiss sel
    · obtain ⟨cls, hcls⟩ := ih (addClick r ("Dismissed noise: " ++ sel))
      refine ⟨("Dismissed noise: " ++ sel) :: cls, ?_⟩
      rw [List.foldl_cons, if_pos hds, hcls]
      simp [addClick, List.append_assoc]
    · obtain ⟨cls, hcls⟩ := ih r
      exact ⟨cls, by rw [List.foldl_cons, if_neg hds]; exact hcls⟩

/-- What one render-escalation call can do to the result: the strategy is
always set to `"js"`, the URL and scroll counter are untouched, errors /
clicks / pages only grow, at most `MAX_SCROLL_DEPTH` fresh page URLs are
appended (so dedupedness of `pages` is preserved), and the sections are
either left alone (failure paths) or replaced by the concatenation of at
most `MAX_SCROLL_DEPTH + 1` per-page extractions. -/
theorem js_shape (env : RenderEnv) (url : String) (r : ScrapeResult) :
    ∃ (errs : List Error) (cls pgs : List String),
      (_js_render_and_interact env url r).url = r.url ∧
      (_js_render_and_interact env url r).meta.strategy = "js" ∧
      (_js_render_and_interact env url r).errors = r.errors ++ errs ∧
      (_js_render_and_interact env url r).interactions.clicks
        = r.interactions.clicks ++ cls ∧
      (_js_render_and_interact env url r).interactions.pages
        = r.interactions.pages ++ pgs ∧
      (_js_render_and_interact env url r).interactions.scrolls
        = r.interactions.scrolls ∧
      pgs.length ≤ MAX_SCROLL_DEPTH ∧
      (r.interactions.pages.Nodup →
        (_js_render_and_interact env url r).interactions.pages.Nodup) ∧
      ((_js_render_and_interact env url r).sections = r.sections ∨
        ∃ exs : List (List Section), exs.length ≤ MAX_SCROLL_DEPTH + 1 ∧
          (_js_render_and_interact env url r).sections = exs.flatten) := by
  cases hle : env.launchError with
  | some m =>
    refine ⟨[renderError m], [], [], ?_⟩
    simp [_js_render_and_interact, hle, addError, renderError]
  | none =>
    obtain ⟨cls₀, hcls₀⟩ := dismissFold_shape env noise_dismiss_selectors
      { r with meta := { r.meta with strategy := "js" } }
    set r2 := { r with
      meta := { r.meta with strategy := "js" },
      interactions := { r.interactions with clicks := r.interactions.clicks ++ cls₀ } }
      with hr2
    have hfold :
        (noise_dismiss_selectors.foldl (fun r sel =>
          if env.dismiss sel then addClick r ("Dismissed noise: " ++ sel) else r)
          { r with meta := { r.meta with strategy := "js" } }) = r2 := by
      rw [hcls₀]
    set st0 : RState :=
      { result := r2, all_sections := [], current_url := url } with hst0
    obtain ⟨exs, errs₁, cls₁, pgs₁, hsh⟩ :=
      renderLoop_shape url env (List.range (MAX_SCROLL_DEPTH + 1)) st0
    obtain ⟨hu, ht, hm, hs, hsc, he, hc, hp, ha, hexs, hcnt, hnd⟩ := hsh
    have hcnt' : pgs₁.length ≤ MAX_SCROLL_DEPTH := by
      refine hcnt.trans ?_
      decide
    have hbody : _js_render_and_interact env url r =
        (match renderLoop url env (List.range (MAX_SCROLL_DEPTH + 1)) st0 with
         | (st, some m) =>
           addError st.result ("Critical error during JS rendering/interaction: " ++ m) "render"
         | (st, none) =>
           match env.closeError with
           | some m =>
             addError st.result ("Critical error during JS rendering/interaction: " ++ m) "render"
           | none =>
             { st.result with
               sections := st.all_sections,
               meta := { st.result.meta with strategy := "js" },
               scrapedAt := env.now }) := by
      simp only [_js_render_and_interact, hle, hfold]
    have hpair : renderLoop url env (List.range (MAX_SCROLL_DEPTH + 1)) st0 =
        ((renderLoop url env (List.range (MAX_SCROLL_DEPTH + 1)) st0).1,
         (renderLoop url env (List.range (MAX_SCROLL_DEPTH + 1)) st0).2) := rfl
    set st1 := (renderLoop url env (List.range (MAX_SCROLL_DEPTH + 1)) st0).1 with hst1
    have hr2m : r2.meta = { r.meta with strategy := "js" } := rfl
    have hr2pages : r2.interactions.pages = r.interactions.pages := rfl
    have hr2clicks : r2.interactions.clicks = r.interactions.clicks ++ cls₀ := rfl
    cases hsnd : (renderLoop url env (List.range (MAX_SCROLL_DEPTH + 1)) st0).2 with
    | some m =>
      rw [hpair, hsnd] at hbody
      refine ⟨errs₁ ++ [renderError m], cls₀ ++ cls₁, pgs₁, ?_⟩
      rw [hbody]
      refine ⟨by simp [addError, hu], by simp [addError, hm, hr2m],
        by simp [addError, renderError, he, List.append_assoc],
        by simp [addError, hc, hr2clicks, List.append_assoc],
        by simp [addError, hp, hr2pages], by simp [addError, hsc], hcnt', ?_, ?_⟩
      · intro hnd0
        have := hnd (by simpa [hr2pages] using hnd0)
        simpa [addError, hp, hr2pages] using this
      · left; simp [addError, hs]
    | none =>
      rw [hpair, hsnd] at hbody
      cases hce : env.closeError with
      | some m =>
        rw [hce] at hbody
        refine ⟨errs₁ ++ [renderError m], cls₀ ++ cls₁, pgs₁, ?_⟩
        rw [hbody]
        refine ⟨by simp [addError, hu], by simp [addError, hm, hr2m],
          by simp [addError, renderError, he, List.append_assoc],
          by simp [addError, hc, hr2clicks, List.append_assoc],
          by simp [addError, hp, hr2pages], by simp [addError, hsc], hcnt', ?_, ?_⟩
        · intro hnd0
          have := hnd (by simpa [hr2pages] using hnd0)
          simpa [addError, hp, hr2pages] using this
        · left; simp [addError, hs]
      | none =>
        rw [hce] at hbody
        refine ⟨errs₁, cls₀ ++ cls₁, pgs₁, ?_⟩
        rw [hbody]
        refine ⟨by simp [hu], by simp, by simp [he],
          by simp [hc, hr2clicks, List.append_assoc],
          by simp [hp, hr2pages], by simp [hsc], hcnt', ?_, ?_⟩
        · intro hnd0
          have := hnd (by simpa [hr2pages] using hnd0)
          simpa [hp, hr2pages] using this
        · right
          exact ⟨exs, by simpa using hexs, by simpa using ha⟩

/-- If the embedded `scrape` body yields a value, `scrape` returns it. -/
theorem scrape_of_ok {env : ScrapeEnv} {url : String} {r : ScrapeResult}
    (h : scrapeExc env url = Except.ok r) : scrape env url = r := by
  simp [scrape, h]

/-- `scrape` never returns an exception, and its result is either a purely
static result or one render-escalation applied to a static-phase result; in
both cases the underlying result carries the seed URL and a `pages` list
initialized to exactly `[url]`. -/
theorem scrape_shape (env : ScrapeEnv) (url : String) :
    ∃ r1 : ScrapeResult,
      r1.interactions.pages = [url] ∧ r1.url = url ∧
      scrapeExc env url = Except.ok (scrape env url) ∧
      (scrape env url = r1 ∨
        scrape env url = _js_render_and_interact env.render url r1) := by
  cases hf : env.fetch with
  | success doc =>
    cases hmeta : get_meta doc url with
    | error e =>
      have hbody : scrapeTryBody env url (initResult env url) = Except.error e := by
        simp only [scrapeTryBody, hf, hmeta]
      cases e with
      | httpStatus code reason =>
        by_cases hcode : 400 ≤ code ∧ code < 500
        · have hexc : scrapeExc env url = Except.ok (_js_render_and_interact env.render url
              (addError (initResult env url)
                ("HTTP Error " ++ toString code ++ ": " ++ reason) "fetch")) := by
            simp only [scrapeExc, hbody, if_pos hcode]
          refine ⟨_, by simp [addError, initResult], by simp [addError, initResult],
            by rw [hexc, scrape_of_ok hexc], Or.inr (scrape_of_ok hexc)⟩
        · have hexc : scrapeExc env url = Except.ok
              (addError (initResult env url)
                ("HTTP Error " ++ toString code ++ ": " ++ reason) "fetch") := by
            simp only [scrapeExc, hbody, if_neg hcode]
          refine ⟨_, by simp [addError, initResult], by simp [addError, initResult],
            by rw [hexc, scrape_of_ok hexc], Or.inl (scrape_of_ok hexc)⟩
      | other name msg =>
        have hexc : scrapeExc env url = Except.ok (_js_render_and_interact env.render url
            (addError (initResult env url)
              ("Critical error during static scrape: " ++ name ++ ": " ++ msg) "fetch")) := by
          simp only [scrapeExc, hbody]
        refine ⟨_, by simp [addError, initResult], by simp [addError, initResult],
          by rw [hexc, scrape_of_ok hexc], Or.inr (scrape_of_ok hexc)⟩
    | ok meta =>
      cases hneed : (decide ((main_content_text (get_sections doc url)).length <
          JS_FALLBACK_HEURISTIC_TEXT_MIN_LENGTH) ||
          has_next_page_link (get_sections doc url)) with
      | true =>
        have hexc : scrapeExc env url = Except.ok (_js_render_and_interact env.render url
            (addError { initResult env url with
                meta := meta, sections := get_sections doc url }
              (if (main_content_text (get_sections doc url)).length <
                  JS_FALLBACK_HEURISTIC_TEXT_MIN_LENGTH then
                sparseMessage (main_content_text (get_sections doc url)).length
              else paginationMessage) "heuristic")) := by
          simp only [scrapeExc, scrapeTryBody, hf, hmeta, hneed]
          rfl
        refine ⟨_, by simp [addError, initResult], by simp [addError, initResult],
          by rw [hexc, scrape_of_ok hexc], Or.inr (scrape_of_ok hexc)⟩
      | false =>
        have hexc : scrapeExc env url = Except.ok { initResult env url with
            meta := meta, sections := get_sections doc url } := by
          simp only [scrapeExc, scrapeTryBody, hf, hmeta, hneed]
          rfl
        refine ⟨_, by simp [initResult], by simp [initResult],
          by rw [hexc, scrape_of_ok hexc], Or.inl (scrape_of_ok hexc)⟩
  | statusError code reason =>
    by_cases hcode : 400 ≤ code ∧ code < 500
    · have hexc : scrapeExc env url = Except.ok (_js_render_and_interact env.render url
          (addError (initResult env url)
            ("HTTP Error " ++ toString code ++ ": " ++ reason) "fetch")) := by
        simp only [scrapeExc, scrapeTryBody, hf, if_pos hcode]
      refine ⟨_, by simp [addError, initResult], by simp [addError, initResult],
        by rw [hexc, scrape_of_ok hexc], Or.inr (scrape_of_ok hexc)⟩
    · have hexc : scrapeExc env url = Except.ok
          (addError (initResult env url)
            ("HTTP Error " ++ toString code ++ ": " ++ reason) "fetch") := by
        simp only [scrapeExc, scrapeTryBody, hf, if_neg hcode]
      refine ⟨_, by simp [addError, initResult], by simp [addError, initResult],
        by rw [hexc, scrape_of_ok hexc], Or.inl (scrape_of_ok hexc)⟩
  | exn name msg =>
    have hexc : scrapeExc env url = Except.ok (_js_render_and_interact env.render url
        (addError (initResult env url)
          ("Critical error during static scrape: " ++ name ++ ": " ++ msg) "fetch")) := by
      simp only [scrapeExc, scrapeTryBody, hf]
    refine ⟨_, by simp [addError, initResult], by simp [addError, initResult],
      by rw [hexc, scrape_of_ok hexc], Or.inr (scrape_of_ok hexc)⟩

/-- **C1.** For every input URL and every environment (fetch success, HTTP
status failure, transport failure; render success or failure), the
top-level scrape operation never raises — the embedded body always returns
`Except.ok` — and the returned `ScrapeResult` is well-formed: it carries the
requested URL and its `interactions.pages` audit trail contains the seed
URL (its `meta`, `interactions` and `sections` fields exist by
construction, `sections` possibly empty). -/
theorem claim_C1_scrape_never_raises (env : ScrapeEnv) (url : String) :
    ∃ r : ScrapeResult, scrapeExc env url = Except.ok r ∧ scrape env url = r ∧
      r.url = url ∧ url ∈ r.interactions.pages := by
  obtain ⟨r1, hp1, hu1, hok, hcase⟩ := scrape_shape env url
  refine ⟨scrape env url, hok, rfl, ?_, ?_⟩
  · rcases hcase with h | h
    · rw [h, hu1]
    · rw [h]
      obtain ⟨errs, cls, pgs, h1, _, _, _, _, _, _, _, _⟩ := js_shape env.render url r1
      rw [h1, hu1]
  · rcases hcase with h | h
    · rw [h, hp1]; exact List.mem_singleton.mpr rfl
    · rw [h]
      obtain ⟨errs, cls, pgs, _, _, _, _, h5, _, _, _, _⟩ := js_shape env.render url r1
      rw [h5, hp1]
      exact List.mem_append_left _ (List.mem_singleton.mpr rfl)

/-- **C8.** Resource bounds of the pagination loop: for every environment —
in particular one offering an eligible "next" control on every page — the
visited-pages list of the returned result has at most 4 entries
(`1 + MAX_SCROLL_DEPTH`) and never repeats a URL; and any run of the
pagination loop extracts sections from at most 4 pages
(`MAX_SCROLL_DEPTH + 1` per-page extraction blocks, seed page included). -/
theorem claim_C8_pagination_bounds (env : ScrapeEnv) (url : String) :
    (scrape env url).interactions.pages.length ≤ 1 + MAX_SCROLL_DEPTH ∧
    (scrape env url).interactions.pages.Nodup ∧
    ∀ (seed : String) (renv : RenderEnv) (st : RState),
      ∃ exs : List (List Section), exs.length ≤ MAX_SCROLL_DEPTH + 1 ∧
        (renderLoop seed renv (List.range (MAX_SCROLL_DEPTH + 1)) st).1.all_sections
          = st.all_sections ++ exs.flatten := by
  obtain ⟨r1, hp1, hu1, hok, hcase⟩ := scrape_shape env url
  refine ⟨?_, ?_, ?_⟩
  · rcases hcase with h | h
    · rw [h, hp1]; simp [MAX_SCROLL_DEPTH]
    · rw [h]
      obtain ⟨errs, cls, pgs, _, _, _, _, h5, _, h7, _, _⟩ := js_shape env.render url r1
      rw [h5, hp1]
      simp only [List.length_append, List.length_singleton]
      omega
  · rcases hcase with h | h
    · rw [h, hp1]; simp
    · rw [h]
      obtain ⟨errs, cls, pgs, _, _, _, _, _, _, _, h8, _⟩ := js_shape env.render url r1
      exact h8 (by rw [hp1]; simp)
  · intro seed renv st
    obtain ⟨exs, _, _, _, _, _, _, _, _, _, _, _, ha, hexs, _, _⟩ :=
      renderLoop_shape seed renv (List.range (MAX_SCROLL_DEPTH + 1)) st
    exact ⟨exs, by simpa using hexs, ha⟩

/-! ## Concrete environments used by counterexamples and witnesses -/

/-- A render environment that fails at browser launch (render side effects
are irrelevant to the scenario under test). -/
def exRenderOff : RenderEnv :=
  { launchError := some "PlaywrightError: launch failed",
    dismiss := fun _ => false, iters := fun _ => .raiseAtContent "unused",
    closeError := none, now := 0 }

/-- A document with an empty body: no sections, so the static text is
empty/sparse. -/
def exEmptyDoc : HNode := .elem "html" [] [.elem "body" [] []]

/-- Environment whose static fetch fails with HTTP 500. -/
def c5_env500 : ScrapeEnv :=
  { fetch := .statusError 500 "Internal Server Error", render := exRenderOff, now := 5 }

/-- Environment whose static fetch fails with HTTP 404. -/
def c5_env404 : ScrapeEnv :=
  { fetch := .statusError 404 "Not Found", render := exRenderOff, now := 5 }

/-- **C5 (counterexample).** A static fetch failing with HTTP 500 — an HTTP
error status outside the 4xx range — records the fetch error but returns
*without* invoking the render escalation path: the result is exactly the
static error result, its strategy still `"static"` (every render
invocation sets it to `"js"`), with no render-phase activity at all. This
refutes the claim that any HTTP error status triggers the render
fallback. -/
theorem claim_C5_counterexample :
    scrape c5_env500 "https://e.com/" =
      { url := "https://e.com/", scrapedAt := 5,
        meta := { title := "", description := none, language := "",
                  canonical := none, strategy := "static" },
        sections := [],
        interactions := { clicks := [], scrolls := 0, pages := ["https://e.com/"] },
        errors := [{ message := "HTTP Error 500: Internal Server Error",
                     phase := "fetch" }] } ∧
    (scrape c5_env500 "https://e.com/").meta.strategy = "static" := by
  constructor <;> decide

/-- Environment whose static fetch fails with a transport error (caught by
the generic `except Exception` handler). -/
def c5_envExn : ScrapeEnv :=
  { fetch := .exn "ConnectError" "All connection attempts failed",
    render := exRenderOff, now := 5 }

/-- **C5 (amended).** Whenever the static fetch fails, the controller
records an `Error` with phase `fetch` first in the error list.  It invokes
the render escalation path (observable as `meta.strategy = "js"`, which
every render invocation sets): for HTTP status errors, if and only if the
status is in the 4xx range — a status error outside 4xx (e.g. 5xx) returns
without attempting the render fallback; for transport errors and any other
unexpected exception, unconditionally. -/
theorem claim_C5_amended (env : ScrapeEnv) (url : String) :
    (∀ (code : Nat) (reason : String),
      env.fetch = FetchOutcome.statusError code reason →
      (∃ t, (scrape env url).errors =
        { message := "HTTP Error " ++ toString code ++ ": " ++ reason,
          phase := "fetch" } :: t) ∧
      ((scrape env url).meta.strategy = "js" ↔ 400 ≤ code ∧ code < 500)) ∧
    (∀ (name msg : String),
      env.fetch = FetchOutcome.exn name msg →
      (∃ t, (scrape env url).errors =
        { message := "Critical error during static scrape: " ++ name ++ ": " ++ msg,
          phase := "fetch" } :: t) ∧
      (scrape env url).meta.strategy = "js") := by
  constructor
  · intro code reason hf
    by_cases hcode : 400 ≤ code ∧ code < 500
    · have hexc : scrapeExc env url = Except.ok (_js_render_and_interact env.render url
          (addError (initResult env url)
            ("HTTP Error " ++ toString code ++ ": " ++ reason) "fetch")) := by
        simp only [scrapeExc, scrapeTryBody, hf, if_pos hcode]
      rw [scrape_of_ok hexc]
      obtain ⟨errs, cls, pgs, _, h2, h3, _, _, _, _, _, _⟩ :=
        js_shape env.render url (addError (initResult env url)
          ("HTTP Error " ++ toString code ++ ": " ++ reason) "fetch")
      constructor
      · refine ⟨errs, ?_⟩
        rw [h3]
        simp [addError, initResult]
      · simp [h2, hcode]
    · have hexc : scrapeExc env url = Except.ok
          (addError (initResult env url)
            ("HTTP Error " ++ toString code ++ ": " ++ reason) "fetch") := by
        simp only [scrapeExc, scrapeTryBody, hf, if_neg hcode]
      rw [scrape_of_ok hexc]
      constructor
      · exact ⟨[], by simp [addError, initResult]⟩
      · simp only [addError, initResult]
        constructor
        · intro h
          exact absurd h (by decide)
        · intro h
          exact absurd h hcode
  · intro name msg hf
    have hexc : scrapeExc env url = Except.ok (_js_render_and_interact env.render url
        (addError (initResult env url)
          ("Critical error during static scrape: " ++ name ++ ": " ++ msg) "fetch")) := by
      simp only [scrapeExc, scrapeTryBody, hf]
    rw [scrape_of_ok hexc]
    obtain ⟨errs, cls, pgs, _, h2, h3, _, _, _, _, _, _⟩ :=
      js_shape env.render url (addError (initResult env url)
        ("Critical error during static scrape: " ++ name ++ ": " ++ msg) "fetch")
    constructor
    · refine ⟨errs, ?_⟩
      rw [h3]
      simp [addError, initResult]
    · exact h2

/-- **C5 (witness).** The amended theorem at a concrete 404 fetch failure
(fetch error recorded, render path taken since 404 is 4xx) and at a
concrete transport error (fetch error recorded, render path taken
unconditionally). -/
theorem claim_C5_amended_witness :
    ((∃ t, (scrape c5_env404 "https://e.com/").errors =
        { message := "HTTP Error " ++ toString 404 ++ ": " ++ "Not Found",
          phase := "fetch" } :: t) ∧
      ((scrape c5_env404 "https://e.com/").meta.strategy = "js" ↔
        400 ≤ 404 ∧ 404 < 500)) ∧
    ((∃ t, (scrape c5_envExn "https://e.com/").errors =
        { message := "Critical error during static scrape: " ++ "ConnectError" ++
            ": " ++ "All connection attempts failed",
          phase := "fetch" } :: t) ∧
      (scrape c5_envExn "https://e.com/").meta.strategy = "js") :=
  ⟨(claim_C5_amended c5_env404 "https://e.com/").1 404 "Not Found" rfl,
    (claim_C5_amended c5_envExn "https://e.com/").2 "ConnectError"
      "All connection attempts failed" rfl⟩

/-- Page view of a first rendered page that offers a "next" link to
`https://e.com/p2`. -/
def c2_pageView : PageView :=
  { doc := .elem "html" [] [.elem "body" [] [.elem "section" [] [.text "page one content"]]],
    paginationFound := true, visibleEnabled := true,
    href := some "/p2", textContent := some "next", ariaLabel := none,
    clickUrl := "https://e.com/p2" }

/-- Render environment that extracts and advances on the seed page, then
raises while reading the second page's content. -/
def c2_renv : RenderEnv :=
  { launchError := none, dismiss := fun _ => false,
    iters := fun i =>
      match i with
      | 0 => .page c2_pageView .ok
      | _ => .raiseAtContent "RuntimeError: boom",
    closeError := none, now := 3 }

/-- Scrape environment driving the C2 scenario: the static page is empty
(sparse → escalation), the render loop gathers one section from the seed
page, advances, then crashes. -/
def c2_env : ScrapeEnv := { fetch := .success exEmptyDoc, render := c2_renv, now := 1 }

/-- **C2 (counterexample).** A render-time crash does *not* preserve the
sections the loop had accumulated: in this run the loop extracted a
non-empty section list from the seed page (conjunct 2) and advanced to a
second page (conjuncts 4 and 5 show the recorded click and visited page),
then the next iteration raised; the exception was caught and recorded as a
render-phase error (conjunct 3), but the returned result's `sections` is
empty (conjunct 1) — the accumulated sections were lost, because
`result.sections = all_sections` only executes after the loop completes. -/
theorem claim_C2_counterexample :
    (scrape c2_env "https://e.com/").sections = [] ∧
    get_sections (remove_noise c2_pageView.doc) "https://e.com/" ≠ [] ∧
    (scrape c2_env "https://e.com/").errors.map Error.phase = ["heuristic", "render"] ∧
    (scrape c2_env "https://e.com/").interactions.clicks = ["Followed 'next' (1)"] ∧
    (scrape c2_env "https://e.com/").interactions.pages
      = ["https://e.com/", "https://e.com/p2"] := by
  refine ⟨by decide, by decide, by decide, by decide, by decide⟩

/-- **C2 (amended).** If an exception escapes from inside the pagination
render loop, it is caught once at the loop's outer boundary and recorded as
exactly one trailing `Error` with phase `render`; the result returned to
the caller keeps every *interaction* (clicks and visited pages) accumulated
up to the failure — but the *sections* the loop accumulated are discarded:
the returned `sections` field is whatever it was before the render call
(the assignment `result.sections = all_sections` sits after the loop, so a
mid-loop exception skips it). -/
theorem claim_C2_amended (env : RenderEnv) (url : String) (r : ScrapeResult)
    (st : RState) (m : String)
    (hlaunch : env.launchError = none)
    (hfst : (renderLoop url env (List.range (MAX_SCROLL_DEPTH + 1))
      { result := noise_dismiss_selectors.foldl
          (fun r sel =>
            if env.dismiss sel then addClick r ("Dismissed noise: " ++ sel) else r)
          { r with meta := { r.meta with strategy := "js" } },
        all_sections := [], current_url := url }).1 = st)
    (hsnd : (renderLoop url env (List.range (MAX_SCROLL_DEPTH + 1))
      { result := noise_dismiss_selectors.foldl
          (fun r sel =>
            if env.dismiss sel then addClick r ("Dismissed noise: " ++ sel) else r)
          { r with meta := { r.meta with strategy := "js" } },
        all_sections := [], current_url := url }).2 = some m) :
    _js_render_and_interact env url r
      = addError st.result ("Critical error during JS rendering/interaction: " ++ m)
          "render" ∧
    (_js_render_and_interact env url r).errors = st.result.errors ++ [renderError m] ∧
    (_js_render_and_interact env url r).interactions = st.result.interactions ∧
    (_js_render_and_interact env url r).sections = r.sections := by
  have hpair : renderLoop url env (List.range (MAX_SCROLL_DEPTH + 1))
      { result := noise_dismiss_selectors.foldl
          (fun r sel =>
            if env.dismiss sel then addClick r ("Dismissed noise: " ++ sel) else r)
          { r with meta := { r.meta with strategy := "js" } },
        all_sections := [], current_url := url } = (st, some m) := by
    rw [← hfst, ← hsnd]
  have hjs : _js_render_and_interact env url r
      = addError st.result ("Critical error during JS rendering/interaction: " ++ m)
          "render" := by
    simp only [_js_render_and_interact, hlaunch, hpair]
  have hsec : st.result.sections = r.sections := by
    obtain ⟨exs, errs, cls, pgs, _, _, _, hs, _, _, _, _, _, _, _, _⟩ :=
      renderLoop_shape url env (List.range (MAX_SCROLL_DEPTH + 1))
        { result := noise_dismiss_selectors.foldl
            (fun r sel =>
              if env.dismiss sel then addClick r ("Dismissed noise: " ++ sel) else r)
            { r with meta := { r.meta with strategy := "js" } },
          all_sections := [], current_url := url }
    rw [hfst] at hs
    rw [hs]
    obtain ⟨cls₀, hc⟩ := dismissFold_shape env noise_dismiss_selectors
      { r with meta := { r.meta with strategy := "js" } }
    rw [hc]
  exact ⟨hjs, by rw [hjs]; simp [addError, renderError], by rw [hjs]; simp [addError],
    by rw [hjs]; simpa [addError] using hsec⟩

/-- **C2 (witness).** The amended theorem instantiated on the concrete C2
crash scenario. -/
theorem claim_C2_amended_witness :
    _js_render_and_interact c2_renv "https://e.com/"
        { url := "https://e.com/", scrapedAt := 0, meta := {}, sections := [],
          interactions := {}, errors := [] }
      = addError (renderLoop "https://e.com/" c2_renv (List.range (MAX_SCROLL_DEPTH + 1))
          { result := noise_dismiss_selectors.foldl
              (fun r sel =>
                if c2_renv.dismiss sel then addClick r ("Dismissed noise: " ++ sel) else r)
              { ({ url := "https://e.com/", scrapedAt := 0, meta := {}, sections := [],
                   interactions := {}, errors := [] } : ScrapeResult) with
                meta := { ({} : Meta) with strategy := "js" } },
            all_sections := [], current_url := "https://e.com/" }).1.result
          ("Critical error during JS rendering/interaction: " ++ "RuntimeError: boom")
          "render" ∧
    (_js_render_and_interact c2_renv "https://e.com/"
      { url := "https://e.com/", scrapedAt := 0, meta := {}, sections := [],
        interactions := {}, errors := [] }).errors
      = (renderLoop "https://e.com/" c2_renv (List.range (MAX_SCROLL_DEPTH + 1))
          { result := noise_dismiss_selectors.foldl
              (fun r sel =>
                if c2_renv.dismiss sel then addClick r ("Dismissed noise: " ++ sel) else r)
              { ({ url := "https://e.com/", scrapedAt := 0, meta := {}, sections := [],
                   interactions := {}, errors := [] } : ScrapeResult) with
                meta := { ({} : Meta) with strategy := "js" } },
            all_sections := [], current_url := "https://e.com/" }).1.result.errors
        ++ [renderError "RuntimeError: boom"] ∧
    (_js_render_and_interact c2_renv "https://e.com/"
      { url := "https://e.com/", scrapedAt := 0, meta := {}, sections := [],
        interactions := {}, errors := [] }).interactions
      = (renderLoop "https://e.com/" c2_renv (List.range (MAX_SCROLL_DEPTH + 1))
          { result := noise_dismiss_selectors.foldl
              (fun r sel =>
                if c2_renv.dismiss sel then addClick r ("Dismissed noise: " ++ sel) else r)
              { ({ url := "https://e.com/", scrapedAt := 0, meta := {}, sections := [],
                   interactions := {}, errors := [] } : ScrapeResult) with
                meta := { ({} : Meta) with strategy := "js" } },
            all_sections := [], current_url := "https://e.com/" }).1.result.interactions ∧
    (_js_render_and_interact c2_renv "https://e.com/"
      { url := "https://e.com/", scrapedAt := 0, meta := {}, sections := [],
        interactions := {}, errors := [] }).sections = [] :=
  claim_C2_amended c2_renv "https://e.com/"
    { url := "https://e.com/", scrapedAt := 0, meta := {}, sections := [],
      interactions := {}, errors := [] }
    _ "RuntimeError: boom" rfl rfl (by decide)

/-- String concatenation acts as list concatenation on the character data. -/
theorem data_append (s t : String) : (s ++ t).data = s.data ++ t.data := rfl

/-- The sparse-content message and the pagination-detected message are
distinct for every character count: they already differ within their first
20 characters. -/
theorem sparse_ne_pagination (n : Nat) : sparseMessage n ≠ paginationMessage := by
  intro h
  have hd : (sparseMessage n).data.take 20 = paginationMessage.data.take 20 := by rw [h]
  have hL : (sparseMessage n).data.take 20
      = ("Static content too sparse (".data).take 20 := by
    have : (sparseMessage n).data
        = "Static content too sparse (".data ++
          ((toString n).data ++ " chars). Falling back to JS rendering.".data) := by
      simp [sparseMessage, data_append, List.append_assoc]
    rw [this]
    exact List.take_append_of_le_length (by decide)
  rw [hL] at hd
  exact absurd hd (by decide)

/-- `has_next_page_link` holds exactly when some extracted link's text
case-insensitively equals `"next"` (the `page-` conjunct of the source is
subsumed by the first disjunct). -/
theorem has_next_iff (secs : List Section) :
    has_next_page_link secs = true ↔
      ∃ s ∈ secs, ∃ l ∈ s.content.links, pyLower l.text = "next" := by
  have aux : ∀ a b : Prop, (a ∨ b ∧ a) ↔ a := by tauto
  simp [has_next_page_link, List.any_eq_true, Bool.or_eq_true, Bool.and_eq_true,
    decide_eq_true_eq, aux]

/-- The escalation condition of `scrape`, in the claim's form. -/
theorem needs_iff (doc : HNode) (url : String) :
    ((decide ((main_content_text (get_sections doc url)).length <
        JS_FALLBACK_HEURISTIC_TEXT_MIN_LENGTH) ||
      has_next_page_link (get_sections doc url)) = true) ↔
      ((main_content_text (get_sections doc url)).length <
          JS_FALLBACK_HEURISTIC_TEXT_MIN_LENGTH ∨
        ∃ s ∈ get_sections doc url, ∃ l ∈ s.content.links, pyLower l.text = "next") := by
  rw [Bool.or_eq_true, decide_eq_true_eq, has_next_iff]

/-- A `Meta` successfully built by `get_meta` carries strategy
`"static"`. -/
theorem get_meta_strategy (tree : HNode) (url : String) (m : Meta)
    (h : get_meta tree url = Except.ok m) : m.strategy = "static" := by
  simp only [get_meta] at h
  split at h
  · split at h
    · injection h with h2
      rw [← h2]
    · exact Except.noConfusion h
  · injection h with h2
    rw [← h2]

/-- A successfully fetched page whose canonical link resolves to a
non-http(s) URL: rich body text (no sparse trigger), no "next" link, but
`Meta` construction raises `ValidationError`. -/
def c7_canonDoc : HNode :=
  .elem "html" [] [
    .elem "head" [] [
      .elem "link" [("rel", "canonical"), ("href", "javascript:void(0)")] []],
    .elem "body" [] [
      .elem "section" [] [
        .elem "p" [] [.text "This paragraph is a sufficiently long run of plain body text so that the static-content heuristic is satisfied and no render escalation happens here."]]]]

/-- Environment statically fetching `c7_canonDoc`. -/
def c7x_env : ScrapeEnv := { fetch := .success c7_canonDoc, render := exRenderOff, now := 2 }

set_option maxRecDepth 8192 in
/-- **C7 (counterexample).** The escalation iff fails on a successfully
fetched page with an invalid canonical URL: neither trigger fires
(conjuncts 1 and 2: ample main-content text, no "next" link), yet the
result escalates to rendering (conjunct 3) — because `get_meta`'s
`Meta(...)` construction raises `ValidationError` on the non-http(s)
canonical (`javascript:void(0)` resolves to itself), and the generic
handler records a *fetch*-phase error and always invokes the render path.
No heuristic-phase error is appended at all (conjunct 4), refuting both
the "escalates only if a trigger fires" direction and the exactly-one-
heuristic-error part of the claim. -/
theorem claim_C7_counterexample :
    ¬ ((main_content_text (get_sections c7_canonDoc "https://e.com/")).length <
        JS_FALLBACK_HEURISTIC_TEXT_MIN_LENGTH) ∧
    has_next_page_link (get_sections c7_canonDoc "https://e.com/") = false ∧
    (scrape c7x_env "https://e.com/").meta.strategy = "js" ∧
    (scrape c7x_env "https://e.com/").errors.map Error.phase = ["fetch", "render"] ∧
    (scrape c7x_env "https://e.com/").errors.any
      (fun e => substrS "ValidationError" e.message) = true := by
  refine ⟨by decide, by decide, by decide, by decide, by decide⟩

/-- **C7 (amended).** After a successful static fetch *whose metadata
extraction succeeds* (the canonical link, if present, resolves to a valid
http(s) URL, so the `Meta` construction does not raise), the controller
escalates to rendering (observable as `meta.strategy = "js"`, which every
render invocation sets) if and only if the concatenated text of the
sections with content-bearing types (`hero`/`section`/`list`/`grid`) is
shorter than the fixed threshold, or some extracted link's text
case-insensitively equals `"next"`; when it escalates, the error list
starts with exactly one heuristic-phase error appended by the controller,
whose message is the sparse-content message (with the character count)
when the sparse trigger fired and the pagination-detected message
otherwise — and the two messages are distinct; when it does not escalate,
no error is recorded at all.  (When metadata extraction raises
`ValidationError` instead, the generic handler records a fetch error and
escalates unconditionally — see the counterexample.) -/
theorem claim_C7_amended (env : ScrapeEnv) (url : String) (doc : HNode) (m : Meta)
    (hf : env.fetch = FetchOutcome.success doc)
    (hm : get_meta doc url = Except.ok m) :
    ((scrape env url).meta.strategy = "js" ↔
      ((main_content_text (get_sections doc url)).length <
          JS_FALLBACK_HEURISTIC_TEXT_MIN_LENGTH ∨
        ∃ s ∈ get_sections doc url, ∃ l ∈ s.content.links, pyLower l.text = "next")) ∧
    (((main_content_text (get_sections doc url)).length <
          JS_FALLBACK_HEURISTIC_TEXT_MIN_LENGTH ∨
        ∃ s ∈ get_sections doc url, ∃ l ∈ s.content.links, pyLower l.text = "next") →
      ∃ t, (scrape env url).errors =
        { message :=
            if (main_content_text (get_sections doc url)).length <
                JS_FALLBACK_HEURISTIC_TEXT_MIN_LENGTH then
              sparseMessage (main_content_text (get_sections doc url)).length
            else paginationMessage,
          phase := "heuristic" } :: t ∧
        sparseMessage (main_content_text (get_sections doc url)).length
          ≠ paginationMessage) ∧
    (¬ ((main_content_text (get_sections doc url)).length <
          JS_FALLBACK_HEURISTIC_TEXT_MIN_LENGTH ∨
        ∃ s ∈ get_sections doc url, ∃ l ∈ s.content.links, pyLower l.text = "next") →
      (scrape env url).errors = []) := by
  cases hneed : (decide ((main_content_text (get_sections doc url)).length <
      JS_FALLBACK_HEURISTIC_TEXT_MIN_LENGTH) ||
      has_next_page_link (get_sections doc url)) with
  | true =>
    have hcond := (needs_iff doc url).mp hneed
    have hexc : scrapeExc env url = Except.ok (_js_render_and_interact env.render url
        (addError { initResult env url with
            meta := m, sections := get_sections doc url }
          (if (main_content_text (get_sections doc url)).length <
              JS_FALLBACK_HEURISTIC_TEXT_MIN_LENGTH then
            sparseMessage (main_content_text (get_sections doc url)).length
          else paginationMessage) "heuristic")) := by
      simp only [scrapeExc, scrapeTryBody, hf, hm, hneed]
      rfl
    rw [scrape_of_ok hexc]
    obtain ⟨errs, cls, pgs, _, h2, h3, _, _, _, _, _, _⟩ :=
      js_shape env.render url (addError { initResult env url with
          meta := m, sections := get_sections doc url }
        (if (main_content_text (get_sections doc url)).length <
            JS_FALLBACK_HEURISTIC_TEXT_MIN_LENGTH then
          sparseMessage (main_content_text (get_sections doc url)).length
        else paginationMessage) "heuristic")
    refine ⟨by simp [h2, hcond], fun _ => ⟨errs, ?_, sparse_ne_pagination _⟩,
      fun hn => absurd hcond hn⟩
    rw [h3]
    simp [addError, initResult]
  | false =>
    have hcond : ¬ ((main_content_text (get_sections doc url)).length <
        JS_FALLBACK_HEURISTIC_TEXT_MIN_LENGTH ∨
      ∃ s ∈ get_sections doc url, ∃ l ∈ s.content.links, pyLower l.text = "next") := by
      intro hc
      have := (needs_iff doc url).mpr hc
      rw [hneed] at this
      exact Bool.false_ne_true this
    have hexc : scrapeExc env url = Except.ok { initResult env url with
        meta := m, sections := get_sections doc url } := by
      simp only [scrapeExc, scrapeTryBody, hf, hm, hneed]
      rfl
    rw [scrape_of_ok hexc]
    refine ⟨?_, fun hc => absurd hc hcond, fun _ => by simp [initResult]⟩
    constructor
    · intro hjs
      have hstat : m.strategy = "static" := get_meta_strategy doc url m hm
      simp only at hjs
      rw [hstat] at hjs
      exact absurd hjs (by decide)
    · intro hc
      exact absurd hc hcond

/-- Scrape environment for the C7 witness: sparse static content, valid
(absent) canonical, render disabled at launch. -/
def c7_env : ScrapeEnv := { fetch := .success exEmptyDoc, render := exRenderOff, now := 2 }

/-- **C7 (witness).** The amended escalation iff at a concrete sparse page
whose metadata extraction succeeds. -/
theorem claim_C7_amended_witness :
    ((scrape c7_env "https://e.com/").meta.strategy = "js" ↔
      ((main_content_text (get_sections exEmptyDoc "https://e.com/")).length <
          JS_FALLBACK_HEURISTIC_TEXT_MIN_LENGTH ∨
        ∃ s ∈ get_sections exEmptyDoc "https://e.com/", ∃ l ∈ s.content.links,
          pyLower l.text = "next")) ∧
    (((main_content_text (get_sections exEmptyDoc "https://e.com/")).length <
          JS_FALLBACK_HEURISTIC_TEXT_MIN_LENGTH ∨
        ∃ s ∈ get_sections exEmptyDoc "https://e.com/", ∃ l ∈ s.content.links,
          pyLower l.text = "next") →
      ∃ t, (scrape c7_env "https://e.com/").errors =
        { message :=
            if (main_content_text (get_sections exEmptyDoc "https://e.com/")).length <
                JS_FALLBACK_HEURISTIC_TEXT_MIN_LENGTH then
              sparseMessage
                (main_content_text (get_sections exEmptyDoc "https://e.com/")).length
            else paginationMessage,
          phase := "heuristic" } :: t ∧
        sparseMessage
            (main_content_text (get_sections exEmptyDoc "https://e.com/")).length
          ≠ paginationMessage) ∧
    (¬ ((main_content_text (get_sections exEmptyDoc "https://e.com/")).length <
          JS_FALLBACK_HEURISTIC_TEXT_MIN_LENGTH ∨
        ∃ s ∈ get_sections exEmptyDoc "https://e.com/", ∃ l ∈ s.content.links,
          pyLower l.text = "next") →
      (scrape c7_env "https://e.com/").errors = []) :=
  claim_C7_amended c7_env "https://e.com/" exEmptyDoc
    { title := "", description := none, language := "en",
      canonical := none, strategy := "static" }
    rfl rfl

/-- **C10.** In the pagination loop's already-visited safety check, the
candidate next-page URL is `urljoin seed href` — resolved against the
original seed URL of the crawl, not against the current page's URL: for
*every* loop state (in particular any `current_url`, i.e. any number of
prior advances), an eligible control with a non-empty href leads to the
"already visited" break exactly when the *seed-resolved* URL is already in
the visited list.  The second conjunct shows that resolution against the
seed and against a current page URL genuinely differ. -/
theorem claim_C10_candidate_resolved_against_seed (seed : String) (env : RenderEnv)
    (i : Nat) (st : RState) (v : PageView) (h : String)
    (hi : i < MAX_SCROLL_DEPTH)
    (hb : env.iters i = IterBehavior.page v ClickFate.ok)
    (hp : v.paginationFound = true) (hv : v.visibleEnabled = true)
    (hh : v.href = some h) (hne : h ≠ "") :
    ((urljoin seed h ∈ st.result.interactions.pages) ↔
      ∃ st', renderIter seed env i st = IterOut.brk st' ∧
        st'.result.errors = st.result.errors ++
          [{ message := "Pagination click leads to an already visited URL or is not new. Ending interaction.",
             phase := "heuristic" }]) ∧
    urljoin "https://s/a/" "n.html" ≠ urljoin "https://s/b/" "n.html" := by
  have hd : ¬ i ≥ MAX_SCROLL_DEPTH := by omega
  refine ⟨?_, by decide⟩
  by_cases hm : urljoin seed h ∈ st.result.interactions.pages
  · have hred : renderIter seed env i st = IterOut.brk { st with
        all_sections := st.all_sections ++
          get_sections (remove_noise v.doc) st.current_url,
        result := addError st.result
          "Pagination click leads to an already visited URL or is not new. Ending interaction."
          "heuristic" } := by
      simp [renderIter, hb, hd, hp, hv, hh, hne, hm]
    exact ⟨fun _ => ⟨_, hred, by simp [addError]⟩, fun _ => hm⟩
  · refine ⟨fun hmem => absurd hmem hm, ?_⟩
    rintro ⟨st', heq, -⟩
    simp [renderIter, hb, hd, hp, hv, hh, hne, hm] at heq

/-- Concrete loop state for the C10 witness. -/
def c10_st : RState :=
  { result := { url := "https://e.com/", scrapedAt := 0, meta := {}, sections := [],
                interactions := { pages := ["https://e.com/"] }, errors := [] },
    all_sections := [], current_url := "https://e.com/other/" }

/-- **C10 (witness).** The theorem at iteration 0 of the concrete C2 render
environment (control href `/p2`, current page URL deliberately different
from the seed). -/
theorem claim_C10_witness :
    ((urljoin "https://e.com/" "/p2" ∈ c10_st.result.interactions.pages) ↔
      ∃ st', renderIter "https://e.com/" c2_renv 0 c10_st = IterOut.brk st' ∧
        st'.result.errors = c10_st.result.errors ++
          [{ message := "Pagination click leads to an already visited URL or is not new. Ending interaction.",
             phase := "heuristic" }]) ∧
    urljoin "https://s/a/" "n.html" ≠ urljoin "https://s/b/" "n.html" :=
  claim_C10_candidate_resolved_against_seed "https://e.com/" c2_renv 0 c10_st
    c2_pageView "/p2" (by decide) rfl rfl rfl rfl (by decide)

/-- The C3 document: a section containing a cookie-banner subtree ("NOISE")
and a paragraph long enough to keep the static heuristic satisfied. -/
def c3_doc : HNode :=
  .elem "html" [] [
    .elem "body" [] [
      .elem "section" [] [
        .elem "div" [("class", "cookie-banner")] [.text "NOISE"],
        .elem "p" [] [.text "This paragraph is a sufficiently long run of plain body text so that the static-content heuristic is satisfied and no render escalation happens here."]]]]

/-- Environment fetching `c3_doc` statically. -/
def c3_env : ScrapeEnv := { fetch := .success c3_doc, render := exRenderOff, now := 4 }

set_option maxRecDepth 8192 in
/-- **C3 (code bug).** In the static pass, noise is *not* removed before
extraction: `scraper.py` line 44 builds the tree from the raw HTML and line
45 assigns `remove_noise(html_text)` to a variable whose cleaned content is
never parsed (it is only passed on as the unused `initial_html` argument),
so the cookie-banner text `"NOISE"` reaches the returned section (conjunct
1), the result being a purely static one (conjunct 4).  Extracting from the
noise-removed document — what the code comment and the spec intend — would
have excluded it (conjuncts 2 and 3). -/
theorem claim_C3_static_noise_reaches_sections :
    (scrape c3_env "https://e.com/").sections.any
      (fun s => substrS "NOISE" s.content.text) = true ∧
    (get_sections (remove_noise c3_doc) "https://e.com/").all
      (fun s => !(substrS "NOISE" s.content.text)) = true ∧
    get_sections (remove_noise c3_doc) "https://e.com/" ≠ [] ∧
    (scrape c3_env "https://e.com/").meta.strategy = "static" := by
  refine ⟨by decide, by decide, by decide, by decide⟩

/-- The attribute list of a node. -/
def HNode.attrsList : HNode → List (String × String)
  | .text _ => []
  | .elem _ attrs _ => attrs

/-- Attribute lookup only depends on the attribute list. -/
theorem attrGet_eq_lookup (n : HNode) (a : String) :
    attrGet n a = (HNode.attrsList n).lookup a := by
  cases n <;> rfl

/-- **C6 (counterexample).** A `<div class="faq-list">` classifies as
`"list"`, not `"faq"`: the `grid|list|cards|faqs` class pattern matches the
substring `list` first, and the literal substring `grid` is absent, so the
cascade returns `'list'` before the `faq` rule is ever consulted.  This
refutes the claim that the faq rule takes priority on this input. -/
theorem claim_C6_counterexample :
    determine_section_type (.elem "div" [("class", "faq-list")] []) = "list" ∧
    determine_section_type (.elem "div" [("class", "faq-list")] []) ≠ "faq" := by
  constructor <;> decide

/-- **C6 (amended).** The section classifier is a deterministic function of
the node's tag and attribute list alone — children never matter — evaluated
as a fixed priority cascade whose result always lies in the closed type
set: `<section id="hero-top">` classifies as `hero`, `<footer>` as
`footer`; but a `<div class="faq-list">` classifies as `list` — the
`grid|list|cards|faqs` class rule fires on the `list` substring before the
`faq` rule is reached, and without the literal (case-sensitive) substring
`grid` it yields `list` (so `<div class="GRID-layout">` also yields `list`,
the regex being case-insensitive but the `'grid' in class` check literal).
The `faq` rule fires only when that class pattern does not match, e.g.
`<div class="faq-block">` yields `faq`. -/
theorem claim_C6_amended :
    (∀ n₁ n₂ : HNode, n₁.tagName = n₂.tagName →
      HNode.attrsList n₁ = HNode.attrsList n₂ →
      determine_section_type n₁ = determine_section_type n₂) ∧
    determine_section_type (.elem "section" [("id", "hero-top")] []) = "hero" ∧
    determine_section_type (.elem "footer" [] []) = "footer" ∧
    determine_section_type (.elem "div" [("class", "faq-list")] []) = "list" ∧
    determine_section_type (.elem "div" [("class", "faq-block")] []) = "faq" ∧
    (∀ (t : String) (a : List (String × String)) (cs₁ cs₂ : List HNode),
      determine_section_type (.elem t a cs₁) = determine_section_type (.elem t a cs₂)) ∧
    determine_section_type (.elem "div" [("class", "GRID-layout")] []) = "list" ∧
    (∀ n : HNode, determine_section_type n ∈
      (["hero", "section", "nav", "footer", "list", "grid", "faq", "pricing",
        "unknown"] : List String)) := by
  have hdet : ∀ n₁ n₂ : HNode, n₁.tagName = n₂.tagName →
      HNode.attrsList n₁ = HNode.attrsList n₂ →
      determine_section_type n₁ = determine_section_type n₂ := by
    intro n₁ n₂ ht ha
    have hg : ∀ a : String, attrGet n₁ a = attrGet n₂ a := by
      intro a
      rw [attrGet_eq_lookup, attrGet_eq_lookup, ha]
    simp only [determine_section_type, attrGetD, ht, hg]
  refine ⟨hdet, by decide, by decide, by decide, by decide,
    fun t a cs₁ cs₂ => hdet _ _ rfl rfl, by decide, ?_⟩
  intro n
  simp only [determine_section_type]
  split_ifs <;> simp

/-- **C6 (witness).** Determinism applied to two footers that differ only
in children, children-independence applied at concrete arguments, the
evaluated cascade examples, and the closed-set fact at a concrete node. -/
theorem claim_C6_amended_witness :
    determine_section_type (.elem "footer" [("class", "x")] [])
      = determine_section_type (.elem "footer" [("class", "x")] [.text "y"]) ∧
    determine_section_type (.elem "section" [("id", "hero-top")] []) = "hero" ∧
    determine_section_type (.elem "div" [("class", "faq-list")] []) = "list" ∧
    determine_section_type (.elem "div" [("class", "GRID-layout")] []) = "list" ∧
    determine_section_type (.elem "ul" [] [.text "z"])
      = determine_section_type (.elem "ul" [] []) ∧
    determine_section_type (.elem "article" [] []) ∈
      (["hero", "section", "nav", "footer", "list", "grid", "faq", "pricing",
        "unknown"] : List String) :=
  ⟨claim_C6_amended.1 (.elem "footer" [("class", "x")] [])
      (.elem "footer" [("class", "x")] [.text "y"]) (by decide) (by decide),
    claim_C6_amended.2.1, claim_C6_amended.2.2.2.1,
    claim_C6_amended.2.2.2.2.2.2.1,
    claim_C6_amended.2.2.2.2.2.1 "ul" [] [.text "z"] [],
    claim_C6_amended.2.2.2.2.2.2.2 (.elem "article" [] [])⟩

/-! ## Decimal representation machinery for section-id indices -/

/-- The numeric value of a decimal digit character. -/
def digitVal (c : Char) : Nat := c.toNat - 48

/-- The value of a most-significant-first decimal digit string. -/
def digitsVal (l : List Char) : Nat := l.foldl (fun a c => a * 10 + digitVal c) 0

/-- The numeric index embedded in a Section id `{type}-{index}`: the value
of the id's trailing run of digits. -/
def idIndex (s : String) : Nat :=
  digitsVal ((s.data.reverse.takeWhile Char.isDigit).reverse)

/-- The decimal digits of `n`, most significant first. -/
def reprDigits (n : Nat) : List Char :=
  if n < 10 then [Nat.digitChar n]
  else reprDigits (n / 10) ++ [Nat.digitChar (n % 10)]
decreasing_by exact Nat.div_lt_self (by omega) (by omega)

theorem digitChar_toNat {d : Nat} (h : d < 10) : (Nat.digitChar d).toNat = 48 + d := by
  interval_cases d <;> rfl

theorem digitChar_isDigit {d : Nat} (h : d < 10) :
    (Nat.digitChar d).isDigit = true := by
  interval_cases d <;> rfl

theorem digitVal_digitChar {d : Nat} (h : d < 10) : digitVal (Nat.digitChar d) = d := by
  rw [digitVal, digitChar_toNat h]
  omega

theorem reprDigits_isDigit : ∀ n, ∀ c ∈ reprDigits n, c.isDigit = true := by
  intro n
  induction n using Nat.strong_induction_on with
  | _ n ih =>
    rw [reprDigits]
    split
    · intro c hc
      rw [List.mem_singleton] at hc
      subst hc
      exact digitChar_isDigit (by omega)
    · intro c hc
      rw [List.mem_append] at hc
      rcases hc with hc | hc
      · exact ih (n / 10) (Nat.div_lt_self (by omega) (by omega)) c hc
      · rw [List.mem_singleton] at hc
        subst hc
        exact digitChar_isDigit (Nat.mod_lt _ (by omega))

theorem digitsVal_reprDigits : ∀ n, digitsVal (reprDigits n) = n := by
  intro n
  induction n using Nat.strong_induction_on with
  | _ n ih =>
    rw [reprDigits]
    split
    · rename_i h
      simp [digitsVal, digitVal_digitChar h]
    · rename_i h
      have h10 : 10 ≤ n := by omega
      rw [digitsVal, List.foldl_append]
      have hfold : List.foldl (fun a c => a * 10 + digitVal c) 0 (reprDigits (n / 10))
          = n / 10 := ih (n / 10) (Nat.div_lt_self (by omega) (by omega))
      rw [hfold]
      simp only [List.foldl_cons, List.foldl_nil]
      rw [digitVal_digitChar (Nat.mod_lt _ (by omega))]
      omega

theorem toDigitsCore_eq : ∀ (fuel n : Nat) (acc : List Char), n < fuel →
    Nat.toDigitsCore 10 fuel n acc = reprDigits n ++ acc := by
  intro fuel
  induction fuel with
  | zero => intro n acc h; omega
  | succ f ih =>
    intro n acc h
    rw [Nat.toDigitsCore]
    by_cases h0 : n / 10 = 0
    · have hn : n < 10 := by omega
      rw [if_pos h0, reprDigits, if_pos hn, Nat.mod_eq_of_lt hn]
      rfl
    · have hn : ¬ n < 10 := by
        intro hc
        exact h0 (Nat.div_eq_of_lt hc)
      rw [if_neg h0, ih (n / 10) _ (by omega)]
      conv_rhs => rw [reprDigits, if_neg hn]
      simp

theorem repr_data (n : Nat) : (Nat.repr n).data = reprDigits n := by
  show (Nat.toDigits 10 n).asString.data = reprDigits n
  rw [Nat.toDigits, toDigitsCore_eq (n + 1) n [] (by omega)]
  simp [List.asString]

theorem takeWhile_digits (post : List Char) (pre : List Char)
    (h : ∀ c ∈ post, Char.isDigit c = true) :
    (post ++ '-' :: pre).takeWhile Char.isDigit = post := by
  induction post with
  | nil => simp [List.takeWhile]
  | cons c cs ih =>
    have hc : Char.isDigit c = true := h c (by simp)
    simp only [List.cons_append, List.takeWhile_cons, hc, if_true]
    rw [ih (fun x hx => h x (by simp [hx]))]

theorem idIndex_mk (t : String) (k : Nat) : idIndex (t ++ "-" ++ Nat.repr k) = k := by
  rw [idIndex]
  have hdata : (t ++ "-" ++ Nat.repr k).data
      = t.data ++ '-' :: reprDigits k := by
    rw [data_append, data_append, repr_data]
    simp
  rw [hdata]
  have hrev : (t.data ++ '-' :: reprDigits k).reverse
      = (reprDigits k).reverse ++ '-' :: t.data.reverse := by
    simp
  rw [hrev, takeWhile_digits _ _ (fun c hc =>
    reprDigits_isDigit k c (List.mem_reverse.mp hc))]
  rw [List.reverse_reverse, digitsVal_reprDigits]

theorem create_section_id (node : HNode) (base_url : String) (k : Nat) :
    (create_section node base_url k).id
      = determine_section_type node ++ "-" ++ Nat.repr k := rfl

theorem idIndex_create_section (node : HNode) (base_url : String) (k : Nat) :
    idIndex (create_section node base_url k).id = k := by
  rw [create_section_id, idIndex_mk]

/-- The section-appending fold of `get_sections` keeps the invariant that
the embedded id indices are exactly `0, 1, 2, …` in order. -/
theorem fold_create_inv (base : String) :
    ∀ (nodes : List HNode) (acc : List Section),
    acc.map (fun s => idIndex s.id) = List.range acc.length →
    ((nodes.foldl (fun acc node => acc ++ [create_section node base acc.length]) acc).map
        (fun s => idIndex s.id))
      = List.range
          (nodes.foldl (fun acc node => acc ++ [create_section node base acc.length]) acc).length := by
  intro nodes
  induction nodes with
  | nil => intro acc hacc; exact hacc
  | cons n ns ih =>
    intro acc hacc
    simp only [List.foldl_cons]
    apply ih
    rw [List.map_append, hacc]
    simp [idIndex_create_section, List.range_succ]

/-- The same invariant for the outer fold over the semantic selectors. -/
theorem fold_selectors_inv (tree : HNode) (base : String) :
    ∀ (sels : List String) (acc : List Section),
    acc.map (fun s => idIndex s.id) = List.range acc.length →
    ((sels.foldl (fun acc sel =>
        (css tree sel).foldl
          (fun acc node => acc ++ [create_section node base acc.length]) acc) acc).map
        (fun s => idIndex s.id))
      = List.range
          (sels.foldl (fun acc sel =>
            (css tree sel).foldl
              (fun acc node => acc ++ [create_section node base acc.length]) acc) acc).length := by
  intro sels
  induction sels with
  | nil => intro acc hacc; exact hacc
  | cons sel rest ih =>
    intro acc hacc
    simp only [List.foldl_cons]
    exact ih _ (fold_create_inv base (css tree sel) acc hacc)

/-- `get_sections` is a filter of a list whose embedded id indices are
exactly `0, 1, 2, …`. -/
theorem get_sections_pre (tree : HNode) (base : String) :
    ∃ pre : List Section,
      pre.map (fun s => idIndex s.id) = List.range pre.length ∧
      get_sections tree base
        = pre.filter (fun s =>
            s.content.text ≠ "" || s.content.images ≠ [] || s.content.links ≠ []) := by
  rw [get_sections]
  by_cases hemp : (semantic_selectors.foldl (fun acc sel =>
      (css tree sel).foldl
        (fun acc node => acc ++ [create_section node base acc.length]) acc) []).isEmpty
  · refine ⟨(bodyDivs tree).foldl
      (fun acc node => acc ++ [create_section node base acc.length]) [], ?_, ?_⟩
    · exact fold_create_inv base (bodyDivs tree) [] (by simp)
    · simp [hemp]
  · refine ⟨semantic_selectors.foldl (fun acc sel =>
      (css tree sel).foldl
        (fun acc node => acc ++ [create_section node base acc.length]) acc) [], ?_, ?_⟩
    · exact fold_selectors_inv tree base semantic_selectors [] (by simp)
    · simp [hemp]

/-- Environment rendering two pages, each contributing one section. -/
def c4_renv : RenderEnv :=
  { launchError := none, dismiss := fun _ => false,
    iters := fun i =>
      match i with
      | 0 => .page c2_pageView .ok
      | _ => .page { doc := .elem "html" [] [.elem "body" []
                       [.elem "section" [] [.text "page two content"]]],
                     paginationFound := false, visibleEnabled := false,
                     href := none, textContent := none, ariaLabel := none,
                     clickUrl := "" } .ok,
    closeError := none, now := 9 }

/-- Scrape environment for the C4 counterexample: sparse static page, then
a two-page render crawl. -/
def c4_env : ScrapeEnv := { fetch := .success exEmptyDoc, render := c4_renv, now := 1 }

/-- **C4 (counterexample).** In a two-page crawl (conjunct 3 shows both
visited pages), each page's extraction restarts the running index at 0, so
the result contains two sections that *both* carry id `section-0`: section
ids are neither globally increasing nor unique across pages. -/
theorem claim_C4_counterexample :
    (scrape c4_env "https://e.com/").sections.map Section.id
      = ["section-0", "section-0"] ∧
    ¬ ((scrape c4_env "https://e.com/").sections.map Section.id).Nodup ∧
    (scrape c4_env "https://e.com/").interactions.pages
      = ["https://e.com/", "https://e.com/p2"] := by
  refine ⟨by decide, by decide, by decide⟩

/-- **C4 (amended).** Within a single extraction pass (one page), the
numeric index embedded in each Section id is a running count in assignment
order: the indices of the returned sections are strictly increasing (hence
never reused) and the ids are unique within that page's list.  The count
restarts at zero on each page of a multi-page crawl, so ids may repeat
across pages (see the counterexample). -/
theorem claim_C4_amended (tree : HNode) (base_url : String) :
    ((get_sections tree base_url).map (fun s => idIndex s.id)).Pairwise (· < ·) ∧
    ((get_sections tree base_url).map Section.id).Nodup := by
  obtain ⟨pre, hinv, heq⟩ := get_sections_pre tree base_url
  have hsub : List.Sublist (get_sections tree base_url) pre := by
    rw [heq]
    exact List.filter_sublist pre
  have hpw_pre : (pre.map (fun s => idIndex s.id)).Pairwise (· < ·) := by
    rw [hinv]
    exact List.pairwise_lt_range pre.length
  have hpw : ((get_sections tree base_url).map (fun s => idIndex s.id)).Pairwise (· < ·) :=
    hpw_pre.sublist (hsub.map (fun s => idIndex s.id))
  refine ⟨hpw, ?_⟩
  have hpw' : (get_sections tree base_url).Pairwise
      (fun a b => idIndex a.id < idIndex b.id) := (List.pairwise_map).mp hpw
  have hne : (get_sections tree base_url).Pairwise (fun a b => a.id ≠ b.id) := by
    refine hpw'.imp ?_
    intro a b hlt heq'
    rw [heq'] at hlt
    exact Nat.lt_irrefl _ hlt
  exact (List.pairwise_map).mpr hne

/-! ## Absoluteness of resolved URLs -/

/-- Strings with equal character data are equal. -/
theorem str_eq_of_data (s t : String) (h : s.data = t.data) : s = t := by
  cases s
  cases t
  simp only at h
  rw [h]

/-- String concatenation is associative. -/
theorem str_append_assoc (a b c : String) : a ++ b ++ c = a ++ (b ++ c) :=
  str_eq_of_data _ _ (by simp [data_append])

/-- A successfully split scheme is non-empty. -/
theorem splitSchemeGo_ne_nil :
    ∀ (l acc : List Char) (s r : List Char),
      splitSchemeGo acc l = some (s, r) → s ≠ [] := by
  intro l
  induction l with
  | nil => intro acc s r h; exact absurd h (by simp [splitSchemeGo])
  | cons c cs ih =>
    intro acc s r h
    simp only [splitSchemeGo] at h
    by_cases hc : c = ':'
    · rw [if_pos hc] at h
      cases acc with
      | nil => exact absurd h (by simp)
      | cons a as =>
        simp only [Option.some.injEq, Prod.mk.injEq] at h
        obtain ⟨hs, -⟩ := h
        rw [← hs]
        simp
    · rw [if_neg hc] at h
      by_cases hsc : schemeChar c
      · rw [if_pos hsc] at h
        exact ih (c :: acc) s r h
      · rw [if_neg hsc] at h
        exact absurd h (by simp)

/-- The scheme component computed by `urlsplit`. -/
theorem urlsplit_scheme_eq (u : String) :
    (urlsplit u).scheme =
      (match splitScheme u.data with
       | some (s, _) => (⟨s.map Char.toLower⟩ : String)
       | none => "") := by
  rw [urlsplit]
  cases h : splitScheme u.data with
  | none => simp [h]
  | some p =>
    obtain ⟨s, r⟩ := p
    simp [h]

/-- A URL whose `urlsplit` scheme is non-empty is absolute. -/
theorem isAbsolute_of_scheme_ne (u : String)
    (h : (urlsplit u).scheme ≠ "") : isAbsoluteUrl u = true := by
  rw [isAbsoluteUrl]
  cases hs : splitScheme u.data with
  | some p => rfl
  | none =>
    rw [urlsplit_scheme_eq, hs] at h
    exact absurd rfl h

/-- An absolute URL is non-empty. -/
theorem isAbsolute_ne_empty (u : String) (h : isAbsoluteUrl u = true) : u ≠ "" := by
  intro he
  subst he
  exact absurd h (by decide)

/-- Splitting the scheme off `http:...` / `https:...`. -/
theorem splitScheme_concrete (S : String) (hS : S = "http" ∨ S = "https")
    (rest : List Char) :
    splitScheme (S.data ++ ':' :: rest) = some (S.data, rest) := by
  rcases hS with rfl | rfl <;> rfl

/-- Any string whose data starts with `http:` or `https:` is absolute. -/
theorem isAbsolute_of_data (s S : String) (rest : List Char)
    (hS : S = "http" ∨ S = "https") (hd : s.data = S.data ++ ':' :: rest) :
    isAbsoluteUrl s = true := by
  rw [isAbsoluteUrl, hd, splitScheme_concrete S hS]
  rfl

/-- Appending to an absolute URL keeps it absolute (the scheme is found
before the appended tail is reached). -/
theorem splitSchemeGo_append :
    ∀ (l t acc : List Char) (s r : List Char),
      splitSchemeGo acc l = some (s, r) →
      splitSchemeGo acc (l ++ t) = some (s, r ++ t) := by
  intro l
  induction l with
  | nil => intro t acc s r h; exact absurd h (by simp [splitSchemeGo])
  | cons c cs ih =>
    intro t acc s r h
    simp only [splitSchemeGo] at h
    simp only [List.cons_append, splitSchemeGo]
    by_cases hc : c = ':'
    · rw [if_pos hc] at h ⊢
      cases acc with
      | nil => exact absurd h (by simp)
      | cons a as =>
        simp only [Option.some.injEq, Prod.mk.injEq] at h
        obtain ⟨hs, hr⟩ := h
        rw [hs, hr]
        rfl
    · rw [if_neg hc] at h ⊢
      by_cases hsc : schemeChar c
      · rw [if_pos hsc] at h ⊢
        exact ih t (c :: acc) s r h
      · rw [if_neg hsc] at h
        exact absurd h (by simp)

/-- A string extending an absolute URL is absolute. -/
theorem isAbsolute_append (a b : String) (h : isAbsoluteUrl a = true) :
    isAbsoluteUrl (a ++ b) = true := by
  rw [isAbsoluteUrl] at h ⊢
  cases hs : splitScheme a.data with
  | none => rw [hs] at h; exact absurd h (by simp)
  | some p =>
    obtain ⟨s, r⟩ := p
    rw [data_append, splitScheme, splitSchemeGo_append a.data b.data [] s r hs]
    rfl

/-- `urlunsplit` of parts with an `http`/`https` scheme is absolute. -/
theorem urlunsplit_absolute (p : UrlParts)
    (hS : p.scheme = "http" ∨ p.scheme = "https") :
    isAbsoluteUrl (urlunsplit p) = true := by
  have hne : p.scheme ≠ "" := by rcases hS with h | h <;> simp [h]
  have habs : ∀ t : String, isAbsoluteUrl (p.scheme ++ ":" ++ t) = true := by
    intro t
    refine isAbsolute_of_data _ p.scheme t.data hS ?_
    simp [data_append, List.append_assoc]
  rw [urlunsplit]
  simp only [if_pos hne]
  split
  · split
    · exact isAbsolute_append _ _ (isAbsolute_append _ _
        (isAbsolute_append _ _ (isAbsolute_append _ _ (habs _))))
    · exact isAbsolute_append _ _ (isAbsolute_append _ _ (habs _))
  · split
    · exact isAbsolute_append _ _ (isAbsolute_append _ _ (habs _))
    · exact habs _

/-- For an absolute `http(s)` base URL and any non-empty relative (or
absolute) reference, `urljoin` produces an absolute URL — one carrying a
scheme. -/
theorem urljoin_absolute (base url : String)
    (hb : (urlsplit base).scheme = "http" ∨ (urlsplit base).scheme = "https")
    (hu : url ≠ "") : isAbsoluteUrl (urljoin base url) = true := by
  have hbne : base ≠ "" := by
    intro h
    rw [h] at hb
    revert hb
    decide
  rw [urljoin, if_neg hbne, if_neg hu]
  dsimp only
  by_cases husch : (urlsplit url).scheme = ""
  · rw [if_pos husch]
    have hrel : (urlsplit base).scheme ∈ usesRelative := by
      rcases hb with h | h <;> rw [h] <;> decide
    have hcond : ¬((urlsplit base).scheme ≠ (urlsplit base).scheme ∨
        (urlsplit base).scheme ∉ usesRelative) := by
      push_neg
      exact ⟨rfl, hrel⟩
    rw [if_neg hcond]
    split
    · exact urlunsplit_absolute _ hb
    · split
      · exact urlunsplit_absolute _ hb
      · exact urlunsplit_absolute _ hb
  · rw [if_neg husch]
    by_cases heq : (urlsplit url).scheme = (urlsplit base).scheme
    · have hrel : (urlsplit url).scheme ∈ usesRelative := by
        rw [heq]
        rcases hb with h | h <;> rw [h] <;> decide
      have hcond : ¬((urlsplit url).scheme ≠ (urlsplit base).scheme ∨
          (urlsplit url).scheme ∉ usesRelative) := by
        push_neg
        exact ⟨heq, hrel⟩
      rw [if_neg hcond]
      have hbu : (urlsplit url).scheme = "http" ∨ (urlsplit url).scheme = "https" := by
        rw [heq]
        exact hb
      split
      · exact urlunsplit_absolute _ hbu
      · split
        · exact urlunsplit_absolute _ hbu
        · exact urlunsplit_absolute _ hbu
    · rw [if_pos (Or.inl heq)]
      exact isAbsolute_of_scheme_ne url husch

/-- Every link produced by the link-building loop has an absolute href and
a non-empty text label. -/
theorem buildLinks_spec (base : String)
    (hb : (urlsplit base).scheme = "http" ∨ (urlsplit base).scheme = "https") :
    ∀ (anchors : List HNode), ∀ l ∈ buildLinks base anchors,
      isAbsoluteUrl l.href = true ∧ l.text ≠ "" := by
  intro anchors
  induction anchors with
  | nil => intro l hl; exact absurd hl (by simp [buildLinks])
  | cons a rest ih =>
    intro l hl
    rw [buildLinks] at hl
    cases hattr : attrGet a "href" with
    | none =>
      rw [hattr] at hl
      exact ih l hl
    | some href =>
      rw [hattr] at hl
      dsimp only at hl
      by_cases hne : href ≠ ""
      · rw [if_pos hne] at hl
        rcases List.mem_cons.mp hl with heq | hmem
        · have habs : isAbsoluteUrl (urljoin base href) = true :=
            urljoin_absolute base href hb hne
          subst heq
          refine ⟨habs, ?_⟩
          by_cases htext : nodeText a "" true ≠ ""
          · simp [htext]
          · simp only [htext, if_neg, not_true]
            simp only [not_not] at htext
            simp [htext]
            exact isAbsolute_ne_empty _ habs
        · exact ih l hmem
      · rw [if_neg hne] at hl
        exact ih l hl

/-- Every image produced by the image-building loop has an absolute src. -/
theorem buildImages_spec (base : String)
    (hb : (urlsplit base).scheme = "http" ∨ (urlsplit base).scheme = "https") :
    ∀ (imgs : List HNode), ∀ im ∈ buildImages base imgs,
      isAbsoluteUrl im.src = true := by
  intro imgs
  induction imgs with
  | nil => intro im him; exact absurd him (by simp [buildImages])
  | cons img rest ih =>
    intro im him
    rw [buildImages] at him
    cases hattr : attrGet img "src" with
    | none =>
      rw [hattr] at him
      exact ih im him
    | some src =>
      rw [hattr] at him
      dsimp only at him
      by_cases hne : src ≠ ""
      · rw [if_pos hne] at him
        rcases List.mem_cons.mp him with heq | hmem
        · subst heq
          exact urljoin_absolute base src hb hne
        · exact ih im hmem
      · rw [if_neg hne] at him
        exact ih im him

/-- **C9.** For every node and every absolute `http(s)` base URL, the
content extractor resolves every non-empty anchor href and image src to an
absolute URL (one carrying a scheme) against the base — for example base
`https://ex.com/a/` with href `../b.html` yields `https://ex.com/b.html` —
and every produced `Link` has a non-empty text label: the element's
stripped text or, when that is empty, the resolved absolute URL itself. -/
theorem claim_C9_absolute_urls (node : HNode) (base_url : String)
    (hb : (urlsplit base_url).scheme = "http" ∨ (urlsplit base_url).scheme = "https") :
    (∀ l ∈ (extract_section_content node base_url).links,
      isAbsoluteUrl l.href = true ∧ l.text ≠ "") ∧
    (∀ im ∈ (extract_section_content node base_url).images,
      isAbsoluteUrl im.src = true) ∧
    urljoin "https://ex.com/a/" "../b.html" = "https://ex.com/b.html" := by
  refine ⟨?_, ?_, by decide⟩
  · intro l hl
    exact buildLinks_spec base_url hb (css node "a[href]") l hl
  · intro im him
    exact buildImages_spec base_url hb (css node "img[src]") im him

/-- A node with a relative link (with text), a text-less link, and a
relative image. -/
def c9_node : HNode :=
  .elem "section" [] [
    .elem "a" [("href", "../b.html")] [.text "Up"],
    .elem "a" [("href", "c.html")] [],
    .elem "img" [("src", "../img/logo.png"), ("alt", "logo")] []]

/-- **C9 (witness).** The theorem applied at a concrete node and base URL;
the final conjuncts evaluate the extractor there: hrefs/srcs come out
absolute, and the text-less link's label falls back to its resolved URL. -/
theorem claim_C9_witness :
    ((∀ l ∈ (extract_section_content c9_node "https://ex.com/a/").links,
        isAbsoluteUrl l.href = true ∧ l.text ≠ "") ∧
      (∀ im ∈ (extract_section_content c9_node "https://ex.com/a/").images,
        isAbsoluteUrl im.src = true) ∧
      urljoin "https://ex.com/a/" "../b.html" = "https://ex.com/b.html") ∧
    (extract_section_content c9_node "https://ex.com/a/").links.map Link.href
      = ["https://ex.com/b.html", "https://ex.com/a/c.html"] ∧
    (extract_section_content c9_node "https://ex.com/a/").links.map Link.text
      = ["Up", "https://ex.com/a/c.html"] ∧
    (extract_section_content c9_node "https://ex.com/a/").images.map Image.src
      = ["https://ex.com/img/logo.png"] :=
  ⟨claim_C9_absolute_urls c9_node "https://ex.com/a/" (by decide),
    by decide, by decide, by decide⟩
